import Mathlib

/-
  Verification development for the macrofeed feed-aggregation backend.

  The TypeScript source (models/feed.model.ts, models/entry.model.ts,
  services/feed.service.ts, database/migrate.ts) is shallowly embedded:
  SQLite tables become lists of rows inside an explicit `DB` state,
  `datetime('now')` becomes an explicit `now : Nat` clock (in minutes),
  thrown exceptions become `Except String`, and JavaScript truthiness
  (`x || d`) is modelled explicitly for the option-typed fields involved.
-/

namespace Macrofeed

/-- JavaScript `x || d` for an optional number: `undefined` and `0` are falsy. -/
def jsOrNat (x : Option Nat) (d : Nat) : Nat :=
  match x with
  | some n => if n = 0 then d else n
  | none => d

/-- JavaScript `x || null` for an optional string: `undefined`, `null` and `""` are falsy. -/
def jsOrStr (x : Option String) : Option String :=
  match x with
  | some s => if s = "" then none else some s
  | none => none

/-- JavaScript `a || b` for two optional strings (`item.creator || item.author` etc.). -/
def jsOrElse (a b : Option String) : Option String :=
  match jsOrStr a with
  | some s => some s
  | none => b

/-- JavaScript `a || d` for an optional string with a string default. -/
def jsOrDefault (a : Option String) (d : String) : String :=
  match jsOrStr a with
  | some s => s
  | none => d

/-- JavaScript truthiness of an optional number (`if (updates.category_id)`). -/
def jsTruthyNat (x : Option Nat) : Bool :=
  match x with
  | some n => n != 0
  | none => false

/-! ### SHA-256 (the digest used by `crypto.createHash('sha256')`)

`EntryModel.generateHash` delegates to Node's `crypto` module; the digest
algorithm itself is specified by FIPS 180-4 and is embedded here as an
executable function over `Nat` with explicit reduction modulo `2 ^ 32`. -/

/-- Truncate to a 32-bit word. -/
def w32 (n : Nat) : Nat := n % 2 ^ 32

/-- 32-bit right rotation. -/
def rotr32 (x n : Nat) : Nat := w32 ((x >>> n) ||| (x <<< (32 - n)))

/-- 32-bit bitwise complement. -/
def not32 (x : Nat) : Nat := x ^^^ (2 ^ 32 - 1)

def sha256Ch (x y z : Nat) : Nat := (x &&& y) ^^^ (not32 x &&& z)

def sha256Maj (x y z : Nat) : Nat := (x &&& y) ^^^ (x &&& z) ^^^ (y &&& z)

def bigSigma0 (x : Nat) : Nat := rotr32 x 2 ^^^ rotr32 x 13 ^^^ rotr32 x 22

def bigSigma1 (x : Nat) : Nat := rotr32 x 6 ^^^ rotr32 x 11 ^^^ rotr32 x 25

def smallSigma0 (x : Nat) : Nat := rotr32 x 7 ^^^ rotr32 x 18 ^^^ (x >>> 3)

def smallSigma1 (x : Nat) : Nat := rotr32 x 17 ^^^ rotr32 x 19 ^^^ (x >>> 10)

/-- Word `i` of a word vector packed into a `Nat` as little-endian 32-bit
limbs (word `i` occupies bits `32*i .. 32*i+31`). -/
def wget (W i : Nat) : Nat := (W >>> (32 * i)) % 2 ^ 32

/-- Pack a list of 32-bit words into a single `Nat`, word 0 in the lowest
limb. -/
def packWords (ws : List Nat) : Nat :=
  ws.foldr (fun w acc => w + (acc <<< 32)) 0

/-- The 64 SHA-256 round constants, packed as little-endian 32-bit limbs. -/
def sha256K : Nat :=
  0xc67178f2bef9a3f7a4506ceb90befffa8cc7020884c8781478a5636f748f82ee682e6ff35b9cca4f4ed8aa4a391c0cb334b0bcb52748774c1e376c0819a4c116106aa070f40e3585d6990624d192e819c76c51a3c24b8b70a81a664ba2bfe8a192722c8581c2c92e766a0abb650a735453380d134d2c6dfc2e1b213827b70a851429296706ca6351d5a79147c6e00bf3bf597fc7b00327c8a831c66d983e515276f988da5cb0a9dc4a7484aa2de92c6f240ca1cc0fc19dc6efbe4786e49b69c1c19bf1749bdc06a780deb1fe72be5d74550c7dc3243185be12835b01d807aa98ab1c5ed5923f82a459f111f13956c25be9b5dba5b5c0fbcf71374491428a2f98

/-- Initial SHA-256 hash state, packed as little-endian 32-bit limbs. -/
def sha256H0 : Nat :=
  0x5be0cd191f83d9ab9b05688c510e527fa54ff53a3c6ef372bb67ae856a09e667

/-- Big-endian bytes of a value, `n` bytes wide. -/
def natToBE : Nat → Nat → List Nat
  | _, 0 => []
  | v, n + 1 => natToBE (v / 256) n ++ [v % 256]

/-- UTF-8 encoding of a Unicode code point. -/
def utf8Bytes (c : Nat) : List Nat :=
  if c < 0x80 then [c]
  else if c < 0x800 then
    [0xC0 ||| (c >>> 6), 0x80 ||| (c &&& 0x3F)]
  else if c < 0x10000 then
    [0xE0 ||| (c >>> 12), 0x80 ||| ((c >>> 6) &&& 0x3F), 0x80 ||| (c &&& 0x3F)]
  else
    [0xF0 ||| (c >>> 18), 0x80 ||| ((c >>> 12) &&& 0x3F),
     0x80 ||| ((c >>> 6) &&& 0x3F), 0x80 ||| (c &&& 0x3F)]

/-- UTF-8 bytes of a string. -/
def strBytes (s : String) : List Nat :=
  (s.data.map (fun c => utf8Bytes c.toNat)).flatten

/-- SHA-256 message padding: append `0x80`, zero bytes to 56 mod 64, then the
bit length as a 64-bit big-endian integer. -/
def sha256Pad (msg : List Nat) : List Nat :=
  let zeros := (64 + 56 - (msg.length + 1) % 64) % 64
  msg ++ [0x80] ++ List.replicate zeros 0 ++ natToBE (msg.length * 8) 8

/-- Group bytes into big-endian 32-bit words. -/
def bytesToWords : List Nat → List Nat
  | a :: b :: c :: d :: rest => (((a * 256 + b) * 256 + c) * 256 + d) :: bytesToWords rest
  | _ => []

/-- Split a word list into 16-word blocks (the padded message length is a
multiple of 16 words). -/
def toBlocks (ws : List Nat) : List (List Nat) :=
  (List.range (ws.length / 16)).map (fun i => (ws.drop (16 * i)).take 16)

/-- Extend a 16-word block to the 64-word message schedule (packed). -/
def sha256Schedule (block : Nat) : Nat :=
  (List.range 48).foldl
    (fun w j =>
      w + (w32 (smallSigma1 (wget w (j + 14)) + wget w (j + 9) +
                smallSigma0 (wget w (j + 1)) + wget w j) <<< (32 * (j + 16))))
    block

/-- One SHA-256 round on the packed state. -/
def sha256Round (st kw : Nat) : Nat :=
  let a := wget st 0
  let b := wget st 1
  let c := wget st 2
  let d := wget st 3
  let e := wget st 4
  let f := wget st 5
  let g := wget st 6
  let h := wget st 7
  let t1 := h + bigSigma1 e + sha256Ch e f g + kw
  let t2 := bigSigma0 a + sha256Maj a b c
  packWords [w32 (t1 + t2), a, b, c, w32 (d + t1), e, f, g]

/-- Compress one block into the running hash state (packed). -/
def sha256Compress (h : Nat) (block : Nat) : Nat :=
  let st := (List.range 64).foldl
    (fun st i => sha256Round st (w32 (wget sha256K i + wget (sha256Schedule block) i))) h
  packWords ((List.range 8).map (fun i => w32 (wget h i + wget st i)))

/-- Lower-case hexadecimal digit. -/
def hexDigit (n : Nat) : Char :=
  if n < 10 then Char.ofNat (48 + n) else Char.ofNat (87 + n)

/-- Lower-case hexadecimal rendering, `n` nibbles wide. -/
def natToHex : Nat → Nat → List Char
  | _, 0 => []
  | v, n + 1 => natToHex (v / 16) n ++ [hexDigit (v % 16)]

/-- SHA-256 digest of a string, as lower-case hex (Node's
`createHash('sha256').update(data).digest('hex')`). -/
def sha256Hex (s : String) : String :=
  let blocks := (toBlocks (bytesToWords (sha256Pad (strBytes s)))).map packWords
  let h := blocks.foldl sha256Compress sha256H0
  String.mk (((List.range 8).map (fun i => natToHex (wget h i) 8)).flatten)

set_option maxRecDepth 4000 in
/-- FIPS 180-4 test vector: the embedding computes the standard SHA-256 digest. -/
theorem sha256Hex_abc :
    sha256Hex "abc" = "ba7816bf8f01cfea414140de5dae2223b00361a396177a9cb410ff61f20015ad" := by
  decide

/-! ### Data model

Rows of the SQLite tables created in `database/migrate.ts`, with
`datetime` columns as abstract minute-granularity instants (`Nat`). -/

/-- A row of the `feeds` table. -/
structure Feed where
  id : Nat
  user_id : Nat
  category_id : Nat
  title : String
  feed_url : String
  site_url : String := ""
  description : Option String := none
  favicon_url : Option String := none
  etag_header : Option String := none
  last_modified_header : Option String := none
  last_fetched_at : Option Nat := none
  next_fetch_at : Option Nat := none
  error_count : Nat := 0
  error_message : Option String := none
  disabled : Bool := false
  created_at : Nat := 0
  updated_at : Nat := 0
deriving Repr, DecidableEq

/-- A row of the `entries` table. -/
structure EntryRow where
  id : Nat
  user_id : Nat
  feed_id : Nat
  hash : String
  title : String
  url : String
  author : Option String := none
  content : Option String := none
  summary : Option String := none
  published_at : String
  status : String := "unread"
  starred : Bool := false
  reading_time : Nat := 0
  created_at : Nat := 0
  updated_at : Nat := 0
deriving Repr, DecidableEq

/-- A row of the `enclosures` table. -/
structure Enclosure where
  id : Nat
  entry_id : Nat
  url : String
  mime_type : Option String := none
  size : Option Nat := none
deriving Repr, DecidableEq

/-- A row of the `categories` table. -/
structure Category where
  id : Nat
  user_id : Nat
  title : String
  created_at : Nat := 0
deriving Repr, DecidableEq

/-- The persistent store: the tables touched by the feed-refresh subsystem,
plus AUTOINCREMENT counters. -/
structure DB where
  feeds : List Feed := []
  entries : List EntryRow := []
  enclosures : List Enclosure := []
  categories : List Category := []
  nextFeedId : Nat := 1
  nextEntryId : Nat := 1
  nextEnclosureId : Nat := 1
deriving Repr, DecidableEq

/-- The configuration values the pipeline reads (`config/index.ts` is read
from the environment; both values are inputs here). -/
structure Config where
  feedRefreshIntervalMinutes : Nat
  feedRefreshBatchSize : Nat
deriving Repr, DecidableEq

/-- `UPDATE … WHERE p`: rewrite every row satisfying `p` with `g`. -/
def updWhere (p : Feed → Bool) (g : Feed → Feed) (l : List Feed) : List Feed :=
  l.map (fun f => if p f then g f else f)

namespace FeedModel

/-- `FeedModel.findById`. -/
def findById (db : DB) (id : Nat) : Option Feed :=
  db.feeds.find? (fun f => f.id == id)

/-- `FeedModel.findByIdAndUserId`. -/
def findByIdAndUserId (db : DB) (id userId : Nat) : Option Feed :=
  db.feeds.find? (fun f => f.id == id && f.user_id == userId)

/-- `FeedModel.feedUrlExists` (the call sites in scope pass no `excludeFeedId`). -/
def feedUrlExists (db : DB) (userId : Nat) (feedUrl : String) : Bool :=
  db.feeds.any (fun f => f.user_id == userId && f.feed_url == feedUrl)

/-- `FeedModel.create`: INSERT with `next_fetch_at = datetime('now')` and the
schema defaults for the remaining columns. -/
def create (db : DB) (now : Nat) (userId categoryId : Nat) (title feedUrl : String)
    (siteUrl description faviconUrl : Option String) : DB × Feed :=
  let f : Feed := {
    id := db.nextFeedId
    user_id := userId
    category_id := categoryId
    title := title
    feed_url := feedUrl
    site_url := jsOrDefault siteUrl ""
    description := jsOrStr description
    favicon_url := jsOrStr faviconUrl
    next_fetch_at := some now
    created_at := now
    updated_at := now }
  ({ db with feeds := db.feeds ++ [f], nextFeedId := db.nextFeedId + 1 }, f)

/-- The options bag of `FeedModel.updateFetchResult`. -/
structure FetchOptions where
  etag : Option String := none
  lastModified : Option String := none
  errorMessage : Option String := none
  nextFetchMinutes : Option Nat := none
deriving Repr, DecidableEq

/-- `Math.min(nextFetchMinutes * Math.pow(2, errorCount - 1), 1440)`. -/
def backoffMinutes (base errorCount : Nat) : Nat :=
  min (base * 2 ^ (errorCount - 1)) 1440

/-- SET clause of the success branch of `updateFetchResult`. -/
def applySuccess (now m : Nat) (etag lastModified : Option String) (f : Feed) : Feed :=
  { f with
    last_fetched_at := some now
    next_fetch_at := some (now + m)
    etag_header := etag
    last_modified_header := lastModified
    error_count := 0
    error_message := none
    updated_at := now }

/-- SET clause of the failure branch of `updateFetchResult`. -/
def applyFailure (now backoff errorCount : Nat) (errMsg : Option String) (f : Feed) : Feed :=
  { f with
    last_fetched_at := some now
    next_fetch_at := some (now + backoff)
    error_count := errorCount
    error_message := errMsg
    updated_at := now }

/-- `FeedModel.updateFetchResult`. -/
def updateFetchResult (db : DB) (now : Nat) (feedId : Nat) (success : Bool)
    (options : FetchOptions) : DB :=
  let nextFetchMinutes := jsOrNat options.nextFetchMinutes 60
  if success then
    { db with feeds := (updWhere (fun f => f.id == feedId)
        (applySuccess now nextFetchMinutes (jsOrStr options.etag) (jsOrStr options.lastModified))
        db.feeds) }
  else
    let errorCount := (match db.feeds.find? (fun f => f.id == feedId) with
      | some f => f.error_count
      | none => 0) + 1
    let backoff := backoffMinutes nextFetchMinutes errorCount
    { db with feeds := (updWhere (fun f => f.id == feedId)
        (applyFailure now backoff errorCount (jsOrStr options.errorMessage)) db.feeds) }

/-- The `updates` argument of `FeedModel.update`
(`Partial<Omit<Feed, 'id' | 'user_id' | 'created_at'>>`): a present field is
an entry of `Object.entries(updates)`. -/
structure FeedUpdates where
  category_id : Option Nat := none
  title : Option String := none
  feed_url : Option String := none
  site_url : Option String := none
  description : Option (Option String) := none
  favicon_url : Option (Option String) := none
  etag_header : Option (Option String) := none
  last_modified_header : Option (Option String) := none
  last_fetched_at : Option (Option Nat) := none
  next_fetch_at : Option (Option Nat) := none
  error_count : Option Nat := none
  error_message : Option (Option String) := none
  disabled : Option Bool := none
  updated_at : Option Nat := none
deriving Repr, DecidableEq

/-- True iff some key of the updates object survives the `allowedFields`
filter (so `setClauses` is non-empty). -/
def FeedUpdates.hasAllowed (u : FeedUpdates) : Bool :=
  u.category_id.isSome || u.title.isSome || u.feed_url.isSome || u.site_url.isSome ||
  u.description.isSome || u.favicon_url.isSome || u.etag_header.isSome ||
  u.last_modified_header.isSome || u.last_fetched_at.isSome || u.next_fetch_at.isSome ||
  u.error_count.isSome || u.error_message.isSome

/-- The SET clause built by `FeedModel.update`: exactly the allow-listed
columns that are present, plus `updated_at = datetime('now')`.  The
`disabled` and `updated_at` keys of the updates object are filtered out by
`allowedFields`. -/
def FeedUpdates.apply (u : FeedUpdates) (now : Nat) (f : Feed) : Feed :=
  { f with
    category_id := u.category_id.getD f.category_id
    title := u.title.getD f.title
    feed_url := u.feed_url.getD f.feed_url
    site_url := u.site_url.getD f.site_url
    description := u.description.getD f.description
    favicon_url := u.favicon_url.getD f.favicon_url
    etag_header := u.etag_header.getD f.etag_header
    last_modified_header := u.last_modified_header.getD f.last_modified_header
    last_fetched_at := u.last_fetched_at.getD f.last_fetched_at
    next_fetch_at := u.next_fetch_at.getD f.next_fetch_at
    error_count := u.error_count.getD f.error_count
    error_message := u.error_message.getD f.error_message
    updated_at := now }

/-- `FeedModel.update`: with no surviving set clause it only re-reads the
row; otherwise `UPDATE feeds SET … WHERE id = ? AND user_id = ?`. -/
def update (db : DB) (now : Nat) (feedId userId : Nat) (u : FeedUpdates) :
    DB × Option Feed :=
  if u.hasAllowed then
    let db' := { db with
      feeds := (updWhere (fun f => f.id == feedId && f.user_id == userId) (u.apply now) db.feeds) }
    (db', findById db' feedId)
  else
    (db, findById db feedId)

end FeedModel

namespace EntryModel

/-- `EntryModel.generateHash`: SHA-256 (hex) of `` `${feedId}:${url}:${title}` ``. -/
def generateHash (feedId : Nat) (url title : String) : String :=
  sha256Hex (toString feedId ++ ":" ++ url ++ ":" ++ title)

/-- The `EntryCreateInput` interface of `entry.model.ts`. -/
structure EntryCreateInput where
  feed_id : Nat
  user_id : Nat
  title : String
  url : String
  author : Option String := none
  content : Option String := none
  summary : Option String := none
  published_at : String
  reading_time : Option Nat := none
deriving Repr, DecidableEq

/-- `SELECT id FROM entries WHERE feed_id = ? AND hash = ?` is non-empty;
also the condition under which `UNIQUE(feed_id, hash)` fires on INSERT. -/
def hashExists (db : DB) (feedId : Nat) (hash : String) : Bool :=
  db.entries.any (fun e => e.feed_id == feedId && e.hash == hash)

/-- `EntryModel.create`: the INSERT throws when the `UNIQUE(feed_id, hash)`
constraint of the `entries` table fires. -/
def create (db : DB) (now : Nat) (input : EntryCreateInput) :
    DB × Except String EntryRow :=
  let hash := generateHash input.feed_id input.url input.title
  if hashExists db input.feed_id hash then
    (db, Except.error "UNIQUE constraint failed: entries.feed_id, entries.hash")
  else
    let e : EntryRow := {
      id := db.nextEntryId
      user_id := input.user_id
      feed_id := input.feed_id
      hash := hash
      title := input.title
      url := input.url
      author := jsOrStr input.author
      content := jsOrStr input.content
      summary := jsOrStr input.summary
      published_at := input.published_at
      reading_time := input.reading_time.getD 0
      created_at := now
      updated_at := now }
    ({ db with entries := db.entries ++ [e], nextEntryId := db.nextEntryId + 1 }, Except.ok e)

/-- `EntryModel.createIfNotExists`: check, then insert. -/
def createIfNotExists (db : DB) (now : Nat) (input : EntryCreateInput) :
    DB × Except String (Option EntryRow) :=
  let hash := generateHash input.feed_id input.url input.title
  if hashExists db input.feed_id hash then
    (db, Except.ok none)
  else
    match create db now input with
    | (db', Except.ok e) => (db', Except.ok (some e))
    | (db', Except.error msg) => (db', Except.error msg)

/-- `EntryModel.createIfNotExists` under a concurrent interleaving: the
existence check (`SELECT`) reads the snapshot `dbCheck`, while the INSERT
inside `EntryModel.create` executes against `dbInsert`, the state after a
concurrent writer may have committed between the two statements.
`createIfNotExistsRaced db db now input = createIfNotExists db now input`
recovers the sequential case. -/
def createIfNotExistsRaced (dbCheck dbInsert : DB) (now : Nat)
    (input : EntryCreateInput) : DB × Except String (Option EntryRow) :=
  let hash := generateHash input.feed_id input.url input.title
  if hashExists dbCheck input.feed_id hash then
    (dbInsert, Except.ok none)
  else
    match create dbInsert now input with
    | (db', Except.ok e) => (db', Except.ok (some e))
    | (db', Except.error msg) => (db', Except.error msg)

/-- `EntryModel.addEnclosure`. -/
def addEnclosure (db : DB) (entryId : Nat) (url : String)
    (mimeType : Option String) (size : Option Nat) : DB × Enclosure :=
  let enc : Enclosure := {
    id := db.nextEnclosureId
    entry_id := entryId
    url := url
    mime_type := mimeType
    size := size }
  ({ db with enclosures := db.enclosures ++ [enc], nextEnclosureId := db.nextEnclosureId + 1 }, enc)

end EntryModel

namespace CategoryModel

/-- `CategoryModel.findById` (`models/category.model.ts`):
`SELECT * FROM categories WHERE id = ?`. -/
def findById (db : DB) (id : Nat) : Option Category :=
  db.categories.find? (fun c => c.id == id)

/-- `CategoryModel.getDefaultCategory` (`models/category.model.ts`):
`SELECT * FROM categories WHERE user_id = ? ORDER BY id LIMIT 1` — the
user's category with the smallest id. -/
def getDefaultCategory (db : DB) (userId : Nat) : Option Category :=
  (db.categories.filter (fun c => c.user_id == userId)).foldl
    (fun acc c => match acc with
      | none => some c
      | some b => if c.id < b.id then some c else some b) none

end CategoryModel

/-! ### FeedService (`services/feed.service.ts`)

Network effects (`parser.parseURL`, `fetchFavicon`) are inputs: a fetch
outcome is a `FetchResult` value and a favicon-discovery outcome an
`Option String`. -/

/-- The enclosure custom field of a parsed item (`item.enclosure`); the
`length` string is modelled as the parsed byte count. -/
structure EnclosureField where
  url : Option String := none
  type : Option String := none
  length : Option Nat := none
deriving Repr, DecidableEq

/-- A `ParsedFeedItem` as consumed by `createEntryFromItem`. -/
structure ParsedFeedItem where
  link : Option String := none
  title : Option String := none
  creator : Option String := none
  author : Option String := none
  content : Option String := none
  summary : Option String := none
  contentSnippet : Option String := none
  isoDate : Option String := none
  pubDate : Option String := none
  enclosure : Option EnclosureField := none
deriving Repr, DecidableEq

/-- The normalized document returned by `FeedService.fetchFeed`
(`title` already defaulted to `'Untitled'` there). -/
structure ParsedFeed where
  title : String := "Untitled"
  description : Option String := none
  link : Option String := none
  feedUrl : Option String := none
  items : List ParsedFeedItem := []
deriving Repr, DecidableEq

/-- Outcome of the network fetch + parse (`parser.parseURL`): a parsed
document, or the thrown error's message. -/
inductive FetchResult where
  | ok (pf : ParsedFeed)
  | err (msg : String)
deriving Repr, DecidableEq

/-- The headers configured on the module-level `Parser` instance. -/
def parserDefaultHeaders : List (String × String) :=
  [("User-Agent", "Macrofeed/1.0 (RSS Aggregator)"),
   ("Accept", "application/rss+xml, application/atom+xml, application/xml, text/xml, application/json")]

/-- The `headers` record assembled at the top of `FeedService.fetchFeed`
from the cached validators. -/
def conditionalHeaders (etag lastModified : Option String) : List (String × String) :=
  (match jsOrStr etag with
    | some e => [("If-None-Match", e)]
    | none => []) ++
  (match jsOrStr lastModified with
    | some lm => [("If-Modified-Since", lm)]
    | none => [])

/-- An outgoing HTTP request: URL plus header list. -/
structure HttpRequest where
  url : String
  headers : List (String × String)
deriving Repr, DecidableEq

/-- The request `FeedService.fetchFeed` actually issues: it calls
`await parser.parseURL(url)`, which sends only the parser's configured
default headers — the local `headers` record built by `conditionalHeaders`
is never passed to the parser. -/
def fetchFeedRequest (url : String) (etag lastModified : Option String) : HttpRequest :=
  { url := url, headers := parserDefaultHeaders }

namespace FeedService

/-- Drop through the first `'>'`, if any. -/
def splitAtGt : List Char → Option (List Char)
  | [] => none
  | c :: cs => if c = '>' then some cs else splitAtGt cs

/-- `content.replace(/<[^>]*>/g, '')`: each `'<'` that is followed by a
`'>'` swallows everything through that `'>'`; a `'<'` with no later `'>'`
is literal text.  Fuel-indexed for kernel reduction; fuel `≥` length. -/
def stripTagsGo : Nat → List Char → List Char
  | 0, _ => []
  | _, [] => []
  | fuel + 1, c :: cs =>
    if c = '<' then
      match splitAtGt cs with
      | some rest => stripTagsGo fuel rest
      | none => c :: stripTagsGo fuel cs
    else c :: stripTagsGo fuel cs

/-- HTML-tag stripping as in `estimateReadingTime`. -/
def stripHtml (s : String) : String :=
  String.mk (stripTagsGo s.data.length s.data)

/-- JavaScript `\s` for the character classes that occur here. -/
def isJsSpace (c : Char) : Bool :=
  c = ' ' || c = '\t' || c = '\n' || c = '\r' || c = '\x0b' || c = '\x0c'

/-- Number of maximal non-whitespace runs
(`text.split(/\s+/).filter(w => w.length > 0).length`). -/
def countWordsGo : List Char → Bool → Nat
  | [], _ => 0
  | c :: cs, inWord =>
    if isJsSpace c then countWordsGo cs false
    else (if inWord then 0 else 1) + countWordsGo cs true

/-- `FeedService.estimateReadingTime`: `Math.max(1, Math.ceil(wordCount / 200))`
over the HTML-stripped content. -/
def estimateReadingTime (content : String) : Nat :=
  let text := stripHtml content
  max 1 ((countWordsGo text.data false + 199) / 200)

/-- The `EntryCreateInput` that `createEntryFromItem` assembles for an item
whose link is present. -/
def entryInputOf (now : Nat) (feed : Feed) (item : ParsedFeedItem) (link : String) :
    EntryModel.EntryCreateInput :=
  { feed_id := feed.id
    user_id := feed.user_id
    title := jsOrDefault item.title "Untitled"
    url := link
    author := jsOrElse item.creator item.author
    content := some (jsOrDefault item.content
      (jsOrDefault item.summary (jsOrDefault item.contentSnippet "")))
    summary := jsOrElse item.contentSnippet item.summary
    published_at := jsOrDefault item.isoDate (jsOrDefault item.pubDate (toString now))
    reading_time := some (estimateReadingTime (jsOrDefault item.content
      (jsOrDefault item.summary (jsOrDefault item.contentSnippet "")))) }

/-- `FeedService.createEntryFromItem`. -/
def createEntryFromItem (db : DB) (now : Nat) (feed : Feed) (item : ParsedFeedItem) :
    DB × Except String (Option EntryRow) :=
  match jsOrStr item.link with
  | none => (db, Except.ok none)
  | some link =>
    match EntryModel.createIfNotExists db now (entryInputOf now feed item link) with
    | (db1, Except.ok (some e)) =>
      (match item.enclosure with
        | some enc =>
          (match jsOrStr enc.url with
            | some encUrl =>
              ((EntryModel.addEnclosure db1 e.id encUrl (jsOrStr enc.type) enc.length).1,
               Except.ok (some e))
            | none => (db1, Except.ok (some e)))
        | none => (db1, Except.ok (some e)))
    | (db1, Except.ok none) => (db1, Except.ok none)
    | (db1, Except.error msg) => (db1, Except.error msg)

/-- The per-item loop shared by `subscribe` and `refreshFeed`: each item is
wrapped in `try { if (entry) count++ } catch { logger.warn(…) }`, so a
per-item failure keeps the state mutated so far and continues. -/
def processItems (now : Nat) (feed : Feed) : List ParsedFeedItem → DB → DB × Nat
  | [], db => (db, 0)
  | item :: rest, db =>
    match createEntryFromItem db now feed item with
    | (db1, Except.ok (some _)) =>
      let pr := processItems now feed rest db1
      (pr.1, pr.2 + 1)
    | (db1, Except.ok none) => processItems now feed rest db1
    | (db1, Except.error _) => processItems now feed rest db1

/-- The `FeedRefreshResult` interface. -/
structure FeedRefreshResult where
  feed : Option Feed
  newEntries : Nat
  success : Bool
  error : Option String := none
deriving Repr, DecidableEq

/-- `FeedService.refreshFeed`.  `fetch` is the outcome of the conditional
fetch, `favicon` the outcome of the best-effort favicon discovery. -/
def refreshFeed (db : DB) (now : Nat) (cfg : Config) (fetch : FetchResult)
    (favicon : Option String) (feedId : Nat) : DB × Except String FeedRefreshResult :=
  match FeedModel.findById db feedId with
  | none => (db, Except.error "NotFoundError: Feed")
  | some feed =>
    match fetch with
    | FetchResult.ok pf =>
      let pr := processItems now feed pf.items db
      let db2 := FeedModel.updateFetchResult pr.1 now feed.id true
        { nextFetchMinutes := some cfg.feedRefreshIntervalMinutes }
      let db3 :=
        match jsOrStr feed.favicon_url, jsOrStr pf.link with
        | none, some _ =>
          (match jsOrStr favicon with
            | some fv =>
              (FeedModel.update db2 now feed.id feed.user_id
                { favicon_url := some (some fv) }).1
            | none => db2)
        | _, _ => db2
      (db3, Except.ok {
        feed := FeedModel.findById db3 feed.id
        newEntries := pr.2
        success := true })
    | FetchResult.err msg =>
      let db1 := FeedModel.updateFetchResult db now feed.id false
        { errorMessage := some msg, nextFetchMinutes := some cfg.feedRefreshIntervalMinutes }
      (db1, Except.ok {
        feed := FeedModel.findById db1 feed.id
        newEntries := 0
        success := false
        error := some msg })

/-- Sort key for `ORDER BY next_fetch_at ASC` (SQLite sorts NULL first). -/
def dueKey (f : Feed) : Nat :=
  match f.next_fetch_at with
  | none => 0
  | some n => n + 1

def insertByDue (f : Feed) : List Feed → List Feed
  | [] => [f]
  | g :: gs => if dueKey f ≤ dueKey g then f :: g :: gs else g :: insertByDue f gs

def sortByDue : List Feed → List Feed
  | [] => []
  | f :: fs => insertByDue f (sortByDue fs)

/-- `FeedModel.findFeedsToRefresh`: feeds whose `next_fetch_at` is NULL or
`≤ now`, ordered by `next_fetch_at` ascending, limited to the batch size. -/
def findFeedsToRefresh (db : DB) (now : Nat) (batchSize : Nat) : List Feed :=
  (sortByDue (db.feeds.filter (fun f =>
    match f.next_fetch_at with
    | none => true
    | some t => t ≤ now))).take batchSize

/-- The sweep loop of `FeedService.refreshDueFeeds`: sequential, one
`try { … } catch { errors++ }` per feed; returns `(db, refreshed, errors)`.
`fetchOf`/`favOf` give each feed's network outcomes, keyed by feed id. -/
def refreshLoop (now : Nat) (cfg : Config) (fetchOf : Nat → FetchResult)
    (favOf : Nat → Option String) : List Feed → DB → DB × Nat × Nat
  | [], db => (db, 0, 0)
  | f :: rest, db =>
    match refreshFeed db now cfg (fetchOf f.id) (favOf f.id) f.id with
    | (db', Except.ok r) =>
      let acc := refreshLoop now cfg fetchOf favOf rest db'
      if r.success then (acc.1, acc.2.1 + 1, acc.2.2) else (acc.1, acc.2.1, acc.2.2 + 1)
    | (db', Except.error _) =>
      let acc := refreshLoop now cfg fetchOf favOf rest db'
      (acc.1, acc.2.1, acc.2.2 + 1)

/-- `FeedService.refreshDueFeeds`. -/
def refreshDueFeeds (db : DB) (now : Nat) (cfg : Config) (fetchOf : Nat → FetchResult)
    (favOf : Nat → Option String) : DB × Nat × Nat :=
  refreshLoop now cfg fetchOf favOf (findFeedsToRefresh db now cfg.feedRefreshBatchSize) db

/-- The `FeedCreateInput` consumed by `subscribe`. -/
structure FeedCreateInput where
  feed_url : String
  category_id : Option Nat := none
  title : Option String := none
deriving Repr, DecidableEq

/-- The category-resolution step of `subscribe` (get-or-create default
category, or validate the explicitly given one). -/
def resolveCategory (db : DB) (userId : Nat) (input : FeedCreateInput) :
    Except String Nat :=
  if jsTruthyNat input.category_id then
    match CategoryModel.findById db (input.category_id.getD 0) with
    | some c =>
      if c.user_id == userId then Except.ok c.id
      else Except.error "NotFoundError: Category"
    | none => Except.error "NotFoundError: Category"
  else
    match CategoryModel.getDefaultCategory db userId with
    | some c => Except.ok c.id
    | none => Except.error "ValidationError: No category available"

/-- `FeedService.subscribe`.  `urlValid` is the outcome of
`isValidUrl(input.feed_url)` (WHATWG URL parsing, external); `fetch` and
`favicon` are the network outcomes.  The state component of the result is
the store after the call: every thrown error leaves it at the state
reached so far (all mutations happen only after the fetch succeeds). -/
def subscribe (db : DB) (now : Nat) (cfg : Config) (userId : Nat)
    (input : FeedCreateInput) (urlValid : Bool) (fetch : FetchResult)
    (favicon : Option String) : DB × Except String (Option Feed × Nat) :=
  if input.feed_url = "" || !urlValid then
    (db, Except.error "ValidationError: Invalid feed URL")
  else if FeedModel.feedUrlExists db userId input.feed_url then
    (db, Except.error "ConflictError: Already subscribed to this feed")
  else
    match resolveCategory db userId input with
    | Except.error msg => (db, Except.error msg)
    | Except.ok categoryId =>
      match fetch with
      | FetchResult.err msg =>
        (db, Except.error ("ValidationError: Failed to fetch feed: " ++ msg))
      | FetchResult.ok pf =>
        let cr := FeedModel.create db now userId categoryId
          (jsOrDefault input.title (jsOrDefault (some pf.title) "Untitled Feed"))
          input.feed_url pf.link pf.description (jsOrStr favicon)
        let pr := processItems now cr.2 (pf.items.take 50) cr.1
        let db3 := FeedModel.updateFetchResult pr.1 now cr.2.id true
          { nextFetchMinutes := some cfg.feedRefreshIntervalMinutes }
        (db3, Except.ok (FeedModel.findById db3 cr.2.id, pr.2))

/-- `FeedService.updateFeed`. -/
def updateFeed (db : DB) (now : Nat) (feedId userId : Nat)
    (u : FeedModel.FeedUpdates) : DB × Except String (Option Feed) :=
  match FeedModel.findByIdAndUserId db feedId userId with
  | none => (db, Except.error "NotFoundError: Feed")
  | some _ =>
    if jsTruthyNat u.category_id then
      match CategoryModel.findById db (u.category_id.getD 0) with
      | some c =>
        if c.user_id == userId then
          let r := FeedModel.update db now feedId userId u
          (r.1, Except.ok r.2)
        else (db, Except.error "NotFoundError: Category")
      | none => (db, Except.error "NotFoundError: Category")
    else
      let r := FeedModel.update db now feedId userId u
      (r.1, Except.ok r.2)

end FeedService

/-! ### General lemmas about row updates -/

theorem find?_updWhere_map (p : Feed → Bool) (g : Feed → Feed) (q : Feed → Bool)
    (hq : ∀ f, q (g f) = q f) (l : List Feed) :
    (updWhere p g l).find? q = (l.find? q).map (fun f => if p f then g f else f) := by
  induction l with
  | nil => rfl
  | cons f fs ih =>
    by_cases hp : p f
    · by_cases h2 : q f
      · simp [updWhere, List.find?, hp, h2, hq]
      · simpa [updWhere, List.find?, hp, h2, hq] using ih
    · by_cases h2 : q f
      · simp [updWhere, List.find?, hp, h2]
      · simpa [updWhere, List.find?, hp, h2] using ih

theorem find?_updWhere_isSome (p : Feed → Bool) (g : Feed → Feed) (q : Feed → Bool)
    (hq : ∀ f, q (g f) = q f) (l : List Feed) :
    ((updWhere p g l).find? q).isSome = (l.find? q).isSome := by
  rw [find?_updWhere_map p g q hq l]
  cases l.find? q <;> rfl

theorem find?_updWhere_other (p : Feed → Bool) (g : Feed → Feed) (i j : Nat)
    (hg : ∀ f, (g f).id = f.id) (hp : ∀ f, p f = true → f.id = i) (hne : j ≠ i)
    (l : List Feed) :
    (updWhere p g l).find? (fun f => f.id == j) = l.find? (fun f => f.id == j) := by
  rw [find?_updWhere_map p g (fun f => f.id == j) (fun f => by simp [hg]) l]
  cases hfind : l.find? (fun f => f.id == j) with
  | none => rfl
  | some f0 =>
    have hq0 : f0.id = j := by simpa using List.find?_some hfind
    have hp0 : p f0 = false := by
      by_contra hc
      have : f0.id = i := hp f0 (by simpa using hc)
      exact hne (hq0 ▸ this)
    simp [hp0]

theorem map_updWhere_proj {α : Type} (proj : Feed → α) (p : Feed → Bool) (g : Feed → Feed)
    (h : ∀ f, proj (g f) = proj f) (l : List Feed) :
    (updWhere p g l).map proj = l.map proj := by
  induction l with
  | nil => rfl
  | cons f fs ih =>
    by_cases hp : p f <;> simp [updWhere, hp, h] <;> simpa [updWhere] using ih

/-- The failure path of `updateFetchResult`, applied to a found row. -/
theorem findById_updateFetchResult_fail (db : DB) (now feedId : Nat)
    (options : FeedModel.FetchOptions) (f0 : Feed)
    (h : FeedModel.findById db feedId = some f0) :
    FeedModel.findById (FeedModel.updateFetchResult db now feedId false options) feedId
      = some { f0 with
          last_fetched_at := some now
          next_fetch_at := some (now +
            FeedModel.backoffMinutes (jsOrNat options.nextFetchMinutes 60) (f0.error_count + 1))
          error_count := f0.error_count + 1
          error_message := jsOrStr options.errorMessage
          updated_at := now } := by
  unfold FeedModel.findById at h
  have hp0 := List.find?_some h
  unfold FeedModel.findById FeedModel.updateFetchResult
  rw [if_neg (by decide : ¬ (false = true))]
  dsimp only
  rw [h]
  dsimp only
  rw [find?_updWhere_map (fun f => f.id == feedId)
    (FeedModel.applyFailure now
      (FeedModel.backoffMinutes (jsOrNat options.nextFetchMinutes 60) (f0.error_count + 1))
      (f0.error_count + 1) (jsOrStr options.errorMessage))
    (fun f => f.id == feedId) (fun f => rfl) db.feeds, h]
  simp [hp0, FeedModel.applyFailure]
  exact fun hc => absurd (by simpa using hp0) hc

/-- The success path of `updateFetchResult`, applied to a found row. -/
theorem findById_updateFetchResult_succ (db : DB) (now feedId : Nat)
    (options : FeedModel.FetchOptions) (f0 : Feed)
    (h : FeedModel.findById db feedId = some f0) :
    FeedModel.findById (FeedModel.updateFetchResult db now feedId true options) feedId
      = some { f0 with
          last_fetched_at := some now
          next_fetch_at := some (now + jsOrNat options.nextFetchMinutes 60)
          etag_header := jsOrStr options.etag
          last_modified_header := jsOrStr options.lastModified
          error_count := 0
          error_message := none
          updated_at := now } := by
  unfold FeedModel.findById at h
  have hp0 := List.find?_some h
  unfold FeedModel.findById FeedModel.updateFetchResult
  rw [if_pos (rfl : (true : Bool) = true)]
  dsimp only
  rw [find?_updWhere_map (fun f => f.id == feedId)
    (FeedModel.applySuccess now (jsOrNat options.nextFetchMinutes 60)
      (jsOrStr options.etag) (jsOrStr options.lastModified))
    (fun f => f.id == feedId) (fun f => rfl) db.feeds, h]
  simp [hp0, FeedModel.applySuccess]
  exact fun hc => absurd (by simpa using hp0) hc

theorem updateFetchResult_entries (db : DB) (now feedId : Nat) (success : Bool)
    (options : FeedModel.FetchOptions) :
    (FeedModel.updateFetchResult db now feedId success options).entries = db.entries := by
  cases success <;> rfl

theorem update_entries (db : DB) (now feedId userId : Nat) (u : FeedModel.FeedUpdates) :
    (FeedModel.update db now feedId userId u).1.entries = db.entries := by
  unfold FeedModel.update
  split <;> rfl

theorem findById_updateFetchResult_other (db : DB) (now feedId : Nat) (success : Bool)
    (options : FeedModel.FetchOptions) (j : Nat) (hne : j ≠ feedId) :
    FeedModel.findById (FeedModel.updateFetchResult db now feedId success options) j
      = FeedModel.findById db j := by
  cases success
  · unfold FeedModel.findById FeedModel.updateFetchResult
    rw [if_neg (by decide : ¬ (false = true))]
    dsimp only
    exact find?_updWhere_other (fun f => f.id == feedId)
      (FeedModel.applyFailure now
        (FeedModel.backoffMinutes (jsOrNat options.nextFetchMinutes 60)
          ((match db.feeds.find? (fun f => f.id == feedId) with
            | some f => f.error_count
            | none => 0) + 1))
        ((match db.feeds.find? (fun f => f.id == feedId) with
          | some f => f.error_count
          | none => 0) + 1)
        (jsOrStr options.errorMessage))
      feedId j (fun f => rfl) (fun f hf => by simpa using hf) hne db.feeds
  · unfold FeedModel.findById FeedModel.updateFetchResult
    rw [if_pos (rfl : (true : Bool) = true)]
    dsimp only
    exact find?_updWhere_other (fun f => f.id == feedId)
      (FeedModel.applySuccess now (jsOrNat options.nextFetchMinutes 60)
        (jsOrStr options.etag) (jsOrStr options.lastModified))
      feedId j (fun f => rfl) (fun f hf => by simpa using hf) hne db.feeds

theorem findById_updateFetchResult_isSome (db : DB) (now feedId : Nat) (success : Bool)
    (options : FeedModel.FetchOptions) (j : Nat) :
    (FeedModel.findById (FeedModel.updateFetchResult db now feedId success options) j).isSome
      = (FeedModel.findById db j).isSome := by
  cases success
  · unfold FeedModel.findById FeedModel.updateFetchResult
    rw [if_neg (by decide : ¬ (false = true))]
    dsimp only
    exact find?_updWhere_isSome (fun f => f.id == feedId)
      (FeedModel.applyFailure now
        (FeedModel.backoffMinutes (jsOrNat options.nextFetchMinutes 60)
          ((match db.feeds.find? (fun f => f.id == feedId) with
            | some f => f.error_count
            | none => 0) + 1))
        ((match db.feeds.find? (fun f => f.id == feedId) with
          | some f => f.error_count
          | none => 0) + 1)
        (jsOrStr options.errorMessage))
      (fun f => f.id == j) (fun f => rfl) db.feeds
  · unfold FeedModel.findById FeedModel.updateFetchResult
    rw [if_pos (rfl : (true : Bool) = true)]
    dsimp only
    exact find?_updWhere_isSome (fun f => f.id == feedId)
      (FeedModel.applySuccess now (jsOrNat options.nextFetchMinutes 60)
        (jsOrStr options.etag) (jsOrStr options.lastModified))
      (fun f => f.id == j) (fun f => rfl) db.feeds

theorem findById_update_other (db : DB) (now feedId userId : Nat)
    (u : FeedModel.FeedUpdates) (j : Nat) (hne : j ≠ feedId) :
    FeedModel.findById (FeedModel.update db now feedId userId u).1 j
      = FeedModel.findById db j := by
  unfold FeedModel.update
  split
  · unfold FeedModel.findById
    dsimp only
    exact find?_updWhere_other (fun f => f.id == feedId && f.user_id == userId)
      (u.apply now) feedId j
      (fun f => rfl) (fun f hf => by simp at hf; exact hf.1) hne db.feeds
  · rfl

theorem findById_update_isSome (db : DB) (now feedId userId : Nat)
    (u : FeedModel.FeedUpdates) (j : Nat) :
    (FeedModel.findById (FeedModel.update db now feedId userId u).1 j).isSome
      = (FeedModel.findById db j).isSome := by
  unfold FeedModel.update
  split
  · unfold FeedModel.findById
    dsimp only
    exact find?_updWhere_isSome (fun f => f.id == feedId && f.user_id == userId)
      (u.apply now) (fun f => f.id == j) (fun f => rfl) db.feeds
  · rfl

/-! ### C1: failure path of `updateFetchResult` (exponential backoff) -/

/-- C1: for every feed, a failed fetch attempt increments `error_count` by
exactly one and sets `next_fetch_at` to `now + min(base * 2^(newErrorCount-1),
1440)` minutes, where `base` is the refresh interval passed by the pipeline;
`error_message` is set to the failure text and `last_fetched_at` is still
updated to `now`; the backoff is non-decreasing in the error count and capped
at 1440 minutes. -/
theorem updateFetchResult_backoff_spec
    (db : DB) (now feedId base : Nat) (msg : String) (f0 : Feed)
    (hfind : FeedModel.findById db feedId = some f0)
    (hbase : 0 < base) (hmsg : msg ≠ "") :
    FeedModel.findById
        (FeedModel.updateFetchResult db now feedId false
          { errorMessage := some msg, nextFetchMinutes := some base }) feedId
      = some { f0 with
          last_fetched_at := some now
          next_fetch_at := some (now + min (base * 2 ^ f0.error_count) 1440)
          error_count := f0.error_count + 1
          error_message := some msg
          updated_at := now } ∧
    (∀ ec, 1 ≤ ec →
      FeedModel.backoffMinutes base ec ≤ FeedModel.backoffMinutes base (ec + 1)) ∧
    (∀ ec, FeedModel.backoffMinutes base ec ≤ 1440) := by
  refine ⟨?_, ?_, ?_⟩
  · have h := findById_updateFetchResult_fail db now feedId
      { errorMessage := some msg, nextFetchMinutes := some base } f0 hfind
    rw [h]
    have hb : jsOrNat (some base) 60 = base := by
      simp [jsOrNat]; omega
    simp [FeedModel.backoffMinutes, hb, jsOrStr, hmsg]
  · intro ec hec
    unfold FeedModel.backoffMinutes
    refine min_le_min ?_ le_rfl
    exact Nat.mul_le_mul_left base (Nat.pow_le_pow_right (by omega) (by omega))
  · intro ec
    exact min_le_right _ _

/-- Witness for C1 at the spec's concrete scenario: `error_count = 2`, base
interval 60 minutes, a third failure yields `error_count = 3` and
`next_fetch_at = now + 240`. -/
theorem updateFetchResult_backoff_spec_witness :
    FeedModel.findById
        (FeedModel.updateFetchResult
          { feeds := [{ id := 1, user_id := 1, category_id := 1, title := "F",
                        feed_url := "https://e/f", error_count := 2 }] }
          1000 1 false { errorMessage := some "boom", nextFetchMinutes := some 60 }) 1
      = some { id := 1, user_id := 1, category_id := 1, title := "F",
               feed_url := "https://e/f", error_count := 3,
               last_fetched_at := some 1000, next_fetch_at := some 1240,
               error_message := some "boom", updated_at := 1000 } ∧
    (∀ ec, 1 ≤ ec →
      FeedModel.backoffMinutes 60 ec ≤ FeedModel.backoffMinutes 60 (ec + 1)) ∧
    (∀ ec, FeedModel.backoffMinutes 60 ec ≤ 1440) :=
  updateFetchResult_backoff_spec
    { feeds := [{ id := 1, user_id := 1, category_id := 1, title := "F",
                  feed_url := "https://e/f", error_count := 2 }] }
    1000 1 60 "boom"
    { id := 1, user_id := 1, category_id := 1, title := "F",
      feed_url := "https://e/f", error_count := 2 }
    rfl (by decide) (by decide)

/-! ### C2: fingerprint and dedup key -/

/-- C2: the fingerprint is the SHA-256 hex digest of
`feedId + ":" + url + ":" + title`; it depends only on that triple (so two
items with identical feed id, URL and title always fingerprint equally,
whatever their other fields), and `createIfNotExists` returns the
"already exists" result (null, state untouched) exactly when a stored entry
with the same `(feed_id, fingerprint)` pair exists. -/
theorem generateHash_dedup_spec :
    (∀ (feedId : Nat) (url title : String),
      EntryModel.generateHash feedId url title
        = sha256Hex (toString feedId ++ ":" ++ url ++ ":" ++ title)) ∧
    (∀ i1 i2 : EntryModel.EntryCreateInput,
      i1.feed_id = i2.feed_id → i1.url = i2.url → i1.title = i2.title →
      EntryModel.generateHash i1.feed_id i1.url i1.title
        = EntryModel.generateHash i2.feed_id i2.url i2.title) ∧
    (∀ (db : DB) (now : Nat) (i : EntryModel.EntryCreateInput),
      EntryModel.createIfNotExists db now i = (db, Except.ok none)
        ↔ EntryModel.hashExists db i.feed_id
            (EntryModel.generateHash i.feed_id i.url i.title) = true) := by
  refine ⟨fun _ _ _ => rfl, fun i1 i2 hf hu ht => by rw [hf, hu, ht], fun db now i => ?_⟩
  unfold EntryModel.createIfNotExists
  cases hx : EntryModel.hashExists db i.feed_id
      (EntryModel.generateHash i.feed_id i.url i.title) with
  | true => simp [hx]
  | false =>
    simp only [hx]
    unfold EntryModel.create
    simp [hx]

set_option maxRecDepth 10000 in
/-- Witness for C2: the spec's concrete scenario — the same `(feedId, url,
title)` with a different summary fingerprints identically, and its second
occurrence is rejected as not-new with the store unchanged. -/
theorem generateHash_dedup_spec_witness :
    EntryModel.generateHash 1 "https://a.example/p1" "Hello"
      = sha256Hex "1:https://a.example/p1:Hello" ∧
    EntryModel.generateHash 1 "https://a.example/p1" "Hello"
      = EntryModel.generateHash 1 "https://a.example/p1" "Hello" ∧
    EntryModel.createIfNotExists
        { entries := [{ id := 1, user_id := 1, feed_id := 1,
                        hash := EntryModel.generateHash 1 "https://a.example/p1" "Hello",
                        title := "Hello", url := "https://a.example/p1",
                        published_at := "t1" }],
          nextEntryId := 2 } 9
        { feed_id := 1, user_id := 1, title := "Hello", url := "https://a.example/p1",
          summary := some "a different summary", published_at := "t2" }
      = ({ entries := [{ id := 1, user_id := 1, feed_id := 1,
                         hash := EntryModel.generateHash 1 "https://a.example/p1" "Hello",
                         title := "Hello", url := "https://a.example/p1",
                         published_at := "t1" }],
           nextEntryId := 2 }, Except.ok none) := by
  have h := generateHash_dedup_spec
  refine ⟨h.1 1 "https://a.example/p1" "Hello", ?_, ?_⟩
  · exact h.2.1
      { feed_id := 1, user_id := 1, title := "Hello", url := "https://a.example/p1",
        summary := some "s1", published_at := "t1" }
      { feed_id := 1, user_id := 1, title := "Hello", url := "https://a.example/p1",
        summary := some "s2", published_at := "t2" }
      rfl rfl rfl
  · exact (h.2.2
      { entries := [{ id := 1, user_id := 1, feed_id := 1,
                      hash := EntryModel.generateHash 1 "https://a.example/p1" "Hello",
                      title := "Hello", url := "https://a.example/p1",
                      published_at := "t1" }],
        nextEntryId := 2 } 9
      { feed_id := 1, user_id := 1, title := "Hello", url := "https://a.example/p1",
        summary := some "a different summary", published_at := "t2" }).mpr (by decide)

/-! ### C6: conditional-fetch request headers -/

/-- C6: `fetchFeed` assembles `If-None-Match`/`If-Modified-Since` from the
cached validators, but the request it actually issues
(`parser.parseURL(url)`) carries only the parser's default headers — the
validators are never forwarded to the server. -/
theorem fetchFeed_drops_conditional_headers (url etag lastModified : String)
    (he : etag ≠ "") (hl : lastModified ≠ "") :
    conditionalHeaders (some etag) (some lastModified)
      = [("If-None-Match", etag), ("If-Modified-Since", lastModified)] ∧
    ((fetchFeedRequest url (some etag) (some lastModified)).headers.all
      (fun h => h.1 != "If-None-Match" && h.1 != "If-Modified-Since")) = true := by
  constructor
  · simp [conditionalHeaders, jsOrStr, he, hl]
  · rfl

/-- Witness for C6 at a concrete fetch with both validators cached. -/
theorem fetchFeed_drops_conditional_headers_witness :
    conditionalHeaders (some "W/\"abc\"") (some "Mon, 01 Jan 2024 00:00:00 GMT")
      = [("If-None-Match", "W/\"abc\""),
         ("If-Modified-Since", "Mon, 01 Jan 2024 00:00:00 GMT")] ∧
    ((fetchFeedRequest "https://example.com/feed.xml" (some "W/\"abc\"")
        (some "Mon, 01 Jan 2024 00:00:00 GMT")).headers.all
      (fun h => h.1 != "If-None-Match" && h.1 != "If-Modified-Since")) = true :=
  fetchFeed_drops_conditional_headers "https://example.com/feed.xml" "W/\"abc\""
    "Mon, 01 Jan 2024 00:00:00 GMT" (by decide) (by decide)

/-! ### C8: racing insert against the uniqueness constraint -/

set_option maxRecDepth 10000 in
/-- C8 counterexample: with the uniqueness constraint firing on a racing
insert (the check saw no row, the insert does), `createIfNotExists` does
not return the "already exists" null result — the error propagates. -/
theorem createIfNotExistsRaced_not_silent :
    (EntryModel.createIfNotExistsRaced ({} : DB)
        { entries := [{ id := 1, user_id := 1, feed_id := 1,
                        hash := EntryModel.generateHash 1 "https://a.example/p1" "T",
                        title := "T", url := "https://a.example/p1",
                        published_at := "t" }],
          nextEntryId := 2 } 7
        { feed_id := 1, user_id := 1, title := "T", url := "https://a.example/p1",
          published_at := "t" }).2
      = Except.error "UNIQUE constraint failed: entries.feed_id, entries.hash" ∧
    (EntryModel.createIfNotExistsRaced ({} : DB)
        { entries := [{ id := 1, user_id := 1, feed_id := 1,
                        hash := EntryModel.generateHash 1 "https://a.example/p1" "T",
                        title := "T", url := "https://a.example/p1",
                        published_at := "t" }],
          nextEntryId := 2 } 7
        { feed_id := 1, user_id := 1, title := "T", url := "https://a.example/p1",
          published_at := "t" }).2 ≠ Except.ok none := by
  refine ⟨rfl, ?_⟩
  rw [(rfl :
    (EntryModel.createIfNotExistsRaced ({} : DB)
        { entries := [{ id := 1, user_id := 1, feed_id := 1,
                        hash := EntryModel.generateHash 1 "https://a.example/p1" "T",
                        title := "T", url := "https://a.example/p1",
                        published_at := "t" }],
          nextEntryId := 2 } 7
        { feed_id := 1, user_id := 1, title := "T", url := "https://a.example/p1",
          published_at := "t" }).2
      = Except.error "UNIQUE constraint failed: entries.feed_id, entries.hash")]
  exact fun hc => Except.noConfusion hc

/-- C8 amended: when the existence check misses but a concurrent writer has
already committed the same `(feed_id, fingerprint)`, the INSERT fails with
the uniqueness error, which propagates out of `createIfNotExists` (instead
of being converted to the "already exists" null result); no duplicate row
is inserted — the store is returned unchanged. -/
theorem createIfNotExistsRaced_unique_error
    (dbCheck dbInsert : DB) (now : Nat) (input : EntryModel.EntryCreateInput)
    (hc : EntryModel.hashExists dbCheck input.feed_id
        (EntryModel.generateHash input.feed_id input.url input.title) = false)
    (hi : EntryModel.hashExists dbInsert input.feed_id
        (EntryModel.generateHash input.feed_id input.url input.title) = true) :
    EntryModel.createIfNotExistsRaced dbCheck dbInsert now input
      = (dbInsert,
         Except.error "UNIQUE constraint failed: entries.feed_id, entries.hash") := by
  unfold EntryModel.createIfNotExistsRaced EntryModel.create
  simp [hc, hi]

set_option maxRecDepth 10000 in
/-- Witness for C8's amended statement at the concrete race. -/
theorem createIfNotExistsRaced_unique_error_witness :
    EntryModel.createIfNotExistsRaced ({} : DB)
        { entries := [{ id := 1, user_id := 1, feed_id := 1,
                        hash := EntryModel.generateHash 1 "https://a.example/p1" "T",
                        title := "T", url := "https://a.example/p1",
                        published_at := "t" }],
          nextEntryId := 2 } 7
        { feed_id := 1, user_id := 1, title := "T", url := "https://a.example/p1",
          published_at := "t" }
      = ({ entries := [{ id := 1, user_id := 1, feed_id := 1,
                         hash := EntryModel.generateHash 1 "https://a.example/p1" "T",
                         title := "T", url := "https://a.example/p1",
                         published_at := "t" }],
           nextEntryId := 2 },
         Except.error "UNIQUE constraint failed: entries.feed_id, entries.hash") :=
  createIfNotExistsRaced_unique_error ({} : DB)
    { entries := [{ id := 1, user_id := 1, feed_id := 1,
                    hash := EntryModel.generateHash 1 "https://a.example/p1" "T",
                    title := "T", url := "https://a.example/p1",
                    published_at := "t" }],
      nextEntryId := 2 } 7
    { feed_id := 1, user_id := 1, title := "T", url := "https://a.example/p1",
      published_at := "t" }
    (by decide) (by decide)

/-! ### C10: frame of `FeedModel.update` / `FeedService.updateFeed` -/

theorem update_feeds_proj (db : DB) (now feedId userId : Nat)
    (u : FeedModel.FeedUpdates) :
    (FeedModel.update db now feedId userId u).1.feeds.map
        (fun f => (f.id, f.user_id, f.created_at, f.disabled))
      = db.feeds.map (fun f => (f.id, f.user_id, f.created_at, f.disabled)) := by
  unfold FeedModel.update
  split
  · dsimp only
    exact map_updWhere_proj (fun f => (f.id, f.user_id, f.created_at, f.disabled))
      (fun f => f.id == feedId && f.user_id == userId) (u.apply now)
      (fun f => rfl) db.feeds
  · rfl

/-- C10: for every updates argument, `FeedModel.update` leaves `id`,
`user_id`, `created_at` and `disabled` of every feed row unchanged (only
allow-listed columns plus `updated_at` can change) and touches no entry
rows; the same holds through `FeedService.updateFeed`, so a `disabled`
value accepted by its signature is silently ignored and never persisted. -/
theorem update_allowlist_frame :
    (∀ (db : DB) (now feedId userId : Nat) (u : FeedModel.FeedUpdates),
      (FeedModel.update db now feedId userId u).1.feeds.map
          (fun f => (f.id, f.user_id, f.created_at, f.disabled))
        = db.feeds.map (fun f => (f.id, f.user_id, f.created_at, f.disabled)) ∧
      (FeedModel.update db now feedId userId u).1.entries = db.entries) ∧
    (∀ (db : DB) (now feedId userId : Nat) (u : FeedModel.FeedUpdates),
      (FeedService.updateFeed db now feedId userId u).1.feeds.map
          (fun f => (f.id, f.user_id, f.created_at, f.disabled))
        = db.feeds.map (fun f => (f.id, f.user_id, f.created_at, f.disabled))) := by
  refine ⟨fun db now feedId userId u => ⟨update_feeds_proj db now feedId userId u,
    update_entries db now feedId userId u⟩, fun db now feedId userId u => ?_⟩
  unfold FeedService.updateFeed
  cases hfind : FeedModel.findByIdAndUserId db feedId userId with
  | none => rfl
  | some f =>
    dsimp only
    by_cases ht : jsTruthyNat u.category_id = true
    · rw [if_pos ht]
      cases hcat : CategoryModel.findById db (u.category_id.getD 0) with
      | none => rfl
      | some c =>
        dsimp only
        by_cases hu : (c.user_id == userId) = true
        · rw [if_pos hu]
          exact update_feeds_proj db now feedId userId u
        · rw [if_neg hu]
    · rw [if_neg ht]
      exact update_feeds_proj db now feedId userId u

/-! ### C9: subscription-time fetch failure -/

/-- C9: when the guards pass (well-formed URL, not already subscribed,
category resolvable) and the initial fetch fails, `subscribe` surfaces the
user-visible `ValidationError` and the stored state after the call is
exactly the state before it: no Feed row and no entries are created. -/
theorem subscribe_fetch_failure
    (db : DB) (now : Nat) (cfg : Config) (userId : Nat)
    (input : FeedService.FeedCreateInput) (favicon : Option String) (msg : String)
    (hurl : input.feed_url ≠ "")
    (hex : FeedModel.feedUrlExists db userId input.feed_url = false)
    (hcat : ∃ cid, FeedService.resolveCategory db userId input = Except.ok cid) :
    FeedService.subscribe db now cfg userId input true (FetchResult.err msg) favicon
      = (db, Except.error ("ValidationError: Failed to fetch feed: " ++ msg)) := by
  obtain ⟨cid, hc⟩ := hcat
  unfold FeedService.subscribe
  rw [hc]
  simp [hurl, hex]

/-- Witness for C9 at a concrete store with a default category. -/
theorem subscribe_fetch_failure_witness :
    FeedService.subscribe
        { categories := [{ id := 1, user_id := 1, title := "Default" }] }
        0 { feedRefreshIntervalMinutes := 60, feedRefreshBatchSize := 10 } 1
        { feed_url := "https://example.com/feed.xml" } true
        (FetchResult.err "HTTP 500") none
      = ({ categories := [{ id := 1, user_id := 1, title := "Default" }] },
         Except.error ("ValidationError: Failed to fetch feed: " ++ "HTTP 500")) :=
  subscribe_fetch_failure
    { categories := [{ id := 1, user_id := 1, title := "Default" }] }
    0 { feedRefreshIntervalMinutes := 60, feedRefreshBatchSize := 10 } 1
    { feed_url := "https://example.com/feed.xml" } none "HTTP 500"
    (by decide) (by decide) ⟨1, rfl⟩

/-! ### Preservation lemmas for the refresh pipeline -/

theorem create_feeds (db : DB) (now : Nat) (input : EntryModel.EntryCreateInput) :
    (EntryModel.create db now input).1.feeds = db.feeds := by
  unfold EntryModel.create
  dsimp only
  split <;> rfl

theorem createIfNotExists_feeds (db : DB) (now : Nat)
    (input : EntryModel.EntryCreateInput) :
    (EntryModel.createIfNotExists db now input).1.feeds = db.feeds := by
  unfold EntryModel.createIfNotExists
  dsimp only
  split
  · rfl
  · split
    all_goals next heq =>
      have h2 := congrArg (fun r => r.1.feeds) heq
      dsimp at h2
      rw [← h2]
      exact create_feeds db now input

theorem createEntryFromItem_feeds (db : DB) (now : Nat) (feed : Feed)
    (item : ParsedFeedItem) :
    (FeedService.createEntryFromItem db now feed item).1.feeds = db.feeds := by
  unfold FeedService.createEntryFromItem
  cases jsOrStr item.link with
  | none => rfl
  | some link =>
    dsimp only
    split
    · next db1 e heq =>
      have h2 := congrArg (fun r => r.1.feeds) heq
      dsimp at h2
      have hd : db1.feeds = db.feeds := by
        rw [← h2]; exact createIfNotExists_feeds db now _
      split
      · split
        · exact hd
        · exact hd
      · exact hd
    · next db1 heq =>
      have h2 := congrArg (fun r => r.1.feeds) heq
      dsimp at h2
      have hd : db1.feeds = db.feeds := by
        rw [← h2]; exact createIfNotExists_feeds db now _
      exact hd
    · next db1 msg heq =>
      have h2 := congrArg (fun r => r.1.feeds) heq
      dsimp at h2
      have hd : db1.feeds = db.feeds := by
        rw [← h2]; exact createIfNotExists_feeds db now _
      exact hd

theorem processItems_feeds (now : Nat) (feed : Feed) (items : List ParsedFeedItem)
    (db : DB) :
    (FeedService.processItems now feed items db).1.feeds = db.feeds := by
  induction items generalizing db with
  | nil => rfl
  | cons item rest ih =>
    unfold FeedService.processItems
    split
    · next db1 e heq =>
      have h2 := congrArg (fun r => r.1.feeds) heq
      dsimp at h2
      have hd : db1.feeds = db.feeds := by
        rw [← h2]; exact createEntryFromItem_feeds db now feed item
      dsimp only
      rw [ih db1]
      exact hd
    · next db1 heq =>
      have h2 := congrArg (fun r => r.1.feeds) heq
      dsimp at h2
      have hd : db1.feeds = db.feeds := by
        rw [← h2]; exact createEntryFromItem_feeds db now feed item
      rw [ih db1]
      exact hd
    · next db1 msg heq =>
      have h2 := congrArg (fun r => r.1.feeds) heq
      dsimp at h2
      have hd : db1.feeds = db.feeds := by
        rw [← h2]; exact createEntryFromItem_feeds db now feed item
      rw [ih db1]
      exact hd

theorem findById_congr (db1 db2 : DB) (j : Nat) (h : db1.feeds = db2.feeds) :
    FeedModel.findById db1 j = FeedModel.findById db2 j := by
  unfold FeedModel.findById
  rw [h]

/-- `FeedModel.update` on a row found by id. -/
theorem findById_update_self (db : DB) (now feedId userId : Nat)
    (u : FeedModel.FeedUpdates) (f0 : Feed)
    (h : FeedModel.findById db feedId = some f0) :
    FeedModel.findById (FeedModel.update db now feedId userId u).1 feedId
      = some (if u.hasAllowed = true then
                (if (f0.id == feedId && f0.user_id == userId) = true
                 then u.apply now f0 else f0)
              else f0) := by
  unfold FeedModel.findById at h
  unfold FeedModel.update
  by_cases ha : u.hasAllowed = true
  · rw [if_pos ha, if_pos ha]
    dsimp only
    unfold FeedModel.findById
    rw [find?_updWhere_map (fun f => f.id == feedId && f.user_id == userId) (u.apply now)
      (fun f => f.id == feedId) (fun f => rfl) db.feeds, h]
    rfl
  · rw [if_neg ha, if_neg ha]
    dsimp only
    unfold FeedModel.findById
    exact h

/-! ### C7: success path of the refresh pipeline -/

/-- C7 counterexample: a successful refresh of a feed whose stored
validators are present ends with both cached validators NULL — they are not
set from the fetched response (the pipeline never captures response
validators and passes none to `updateFetchResult`). -/
theorem refreshFeed_success_validators_cex :
    (FeedModel.findById
        (FeedService.refreshFeed
          { feeds := [{ id := 1, user_id := 1, category_id := 1, title := "F",
                        feed_url := "https://e/f",
                        etag_header := some "W/\"old\"",
                        last_modified_header := some "Mon, 01 Jan 2024 00:00:00 GMT" }],
            nextFeedId := 2 }
          10 { feedRefreshIntervalMinutes := 60, feedRefreshBatchSize := 10 }
          (FetchResult.ok { title := "T" }) none 1).1 1).map
      (fun f => (f.etag_header, f.last_modified_header))
      = some (none, none) := by
  decide

/-- C7 amended: for every feed whose fetch succeeds, the success update
resets `error_count` to 0, clears `error_message`, sets `last_fetched_at`
to now and `next_fetch_at` to now plus the configured interval — but
instead of setting the cached validators from the fetched response, it
resets `etag_header` and `last_modified_header` to null (the response
validators are never captured by the pipeline). -/
theorem refreshFeed_success_state
    (db : DB) (now : Nat) (cfg : Config) (pf : ParsedFeed) (favicon : Option String)
    (feedId : Nat) (f0 : Feed)
    (hfind : FeedModel.findById db feedId = some f0)
    (hcfg : cfg.feedRefreshIntervalMinutes ≠ 0) :
    ∃ db' r f1, FeedService.refreshFeed db now cfg (FetchResult.ok pf) favicon feedId
        = (db', Except.ok r) ∧ r.success = true ∧
      FeedModel.findById db' feedId = some f1 ∧
      f1.etag_header = none ∧ f1.last_modified_header = none ∧
      f1.error_count = 0 ∧ f1.error_message = none ∧
      f1.last_fetched_at = some now ∧
      f1.next_fetch_at = some (now + cfg.feedRefreshIntervalMinutes) := by
  have hid : f0.id = feedId := by
    unfold FeedModel.findById at hfind
    simpa using List.find?_some hfind
  have hj : jsOrNat (some cfg.feedRefreshIntervalMinutes) 60
      = cfg.feedRefreshIntervalMinutes := by
    simp [jsOrNat, hcfg]
  have hfind1 : FeedModel.findById
      (FeedService.processItems now f0 pf.items db).1 feedId = some f0 :=
    (findById_congr _ db feedId (processItems_feeds now f0 pf.items db)).trans hfind
  have hsucc := findById_updateFetchResult_succ
    (FeedService.processItems now f0 pf.items db).1 now feedId
    { nextFetchMinutes := some cfg.feedRefreshIntervalMinutes } f0 hfind1
  unfold FeedService.refreshFeed
  rw [hfind]
  dsimp only
  rw [hid]
  cases hfav : jsOrStr f0.favicon_url with
  | some s =>
    refine ⟨_, _, _, rfl, rfl, hsucc, ?_, ?_, ?_, ?_, ?_, ?_⟩ <;>
      simp [jsOrStr, hj]
  | none =>
    cases hlink : jsOrStr pf.link with
    | none =>
      refine ⟨_, _, _, rfl, rfl, hsucc, ?_, ?_, ?_, ?_, ?_, ?_⟩ <;>
        simp [jsOrStr, hj]
    | some site =>
      cases hfv : jsOrStr favicon with
      | none =>
        refine ⟨_, _, _, rfl, rfl, hsucc, ?_, ?_, ?_, ?_, ?_, ?_⟩ <;>
          simp [jsOrStr, hj]
      | some fv =>
        have hupd := findById_update_self
          (FeedModel.updateFetchResult (FeedService.processItems now f0 pf.items db).1
            now feedId true { nextFetchMinutes := some cfg.feedRefreshIntervalMinutes })
          now feedId f0.user_id { favicon_url := some (some fv) } _ hsucc
        refine ⟨_, _, _, rfl, rfl, hupd, ?_, ?_, ?_, ?_, ?_, ?_⟩ <;>
          simp [FeedModel.FeedUpdates.hasAllowed, FeedModel.FeedUpdates.apply,
            FeedModel.applySuccess, hid, jsOrStr, hj]

/-- Witness for C7's amended statement at a concrete feed and response. -/
theorem refreshFeed_success_state_witness :
    ∃ db' r f1,
      FeedService.refreshFeed
          { feeds := [{ id := 1, user_id := 1, category_id := 1, title := "F",
                        feed_url := "https://e/f",
                        etag_header := some "W/\"old\"",
                        last_modified_header := some "Mon, 01 Jan 2024 00:00:00 GMT",
                        error_count := 4, error_message := some "old error" }],
            nextFeedId := 2 }
          10 { feedRefreshIntervalMinutes := 60, feedRefreshBatchSize := 10 }
          (FetchResult.ok { title := "T" }) none 1
        = (db', Except.ok r) ∧ r.success = true ∧
      FeedModel.findById db' 1 = some f1 ∧
      f1.etag_header = none ∧ f1.last_modified_header = none ∧
      f1.error_count = 0 ∧ f1.error_message = none ∧
      f1.last_fetched_at = some 10 ∧
      f1.next_fetch_at = some (10 + 60) :=
  refreshFeed_success_state
    { feeds := [{ id := 1, user_id := 1, category_id := 1, title := "F",
                  feed_url := "https://e/f",
                  etag_header := some "W/\"old\"",
                  last_modified_header := some "Mon, 01 Jan 2024 00:00:00 GMT",
                  error_count := 4, error_message := some "old error" }],
      nextFeedId := 2 }
    10 { feedRefreshIntervalMinutes := 60, feedRefreshBatchSize := 10 }
    { title := "T" } none 1
    { id := 1, user_id := 1, category_id := 1, title := "F",
      feed_url := "https://e/f",
      etag_header := some "W/\"old\"",
      last_modified_header := some "Mon, 01 Jan 2024 00:00:00 GMT",
      error_count := 4, error_message := some "old error" }
    rfl (by decide)

/-! ### Dedup-key lemmas for the item loop -/

/-- The dedup key `createEntryFromItem` computes for an item: present iff
the item has a (truthy) link. -/
def itemKey (feedId : Nat) (item : ParsedFeedItem) : Option String :=
  (jsOrStr item.link).map
    (fun l => EntryModel.generateHash feedId l (jsOrDefault item.title "Untitled"))

theorem hashExists_congr (db1 db2 : DB) (fid : Nat) (k : String)
    (h : db1.entries = db2.entries) :
    EntryModel.hashExists db1 fid k = EntryModel.hashExists db2 fid k := by
  unfold EntryModel.hashExists
  rw [h]

theorem hashExists_append (db db' : DB) (fid : Nat) (k : String) (tail : List EntryRow)
    (he : db'.entries = db.entries ++ tail) :
    EntryModel.hashExists db' fid k
      = (EntryModel.hashExists db fid k
          || tail.any (fun e => e.feed_id == fid && e.hash == k)) := by
  unfold EntryModel.hashExists
  rw [he, List.any_append]

theorem hashExists_false_of_fresh (db : DB) (fid : Nat) (k : String)
    (h : ∀ e ∈ db.entries, e.feed_id ≠ fid) :
    EntryModel.hashExists db fid k = false := by
  unfold EntryModel.hashExists
  rw [List.any_eq_false]
  intro e he
  simp [h e he]

theorem create_entries (db : DB) (now : Nat) (input : EntryModel.EntryCreateInput) :
    ∃ tail, (EntryModel.create db now input).1.entries = db.entries ++ tail := by
  unfold EntryModel.create
  dsimp only
  split
  · exact ⟨[], by simp⟩
  · exact ⟨_, rfl⟩

theorem createIfNotExists_entries (db : DB) (now : Nat)
    (input : EntryModel.EntryCreateInput) :
    ∃ tail, (EntryModel.createIfNotExists db now input).1.entries
      = db.entries ++ tail := by
  unfold EntryModel.createIfNotExists
  dsimp only
  split
  · exact ⟨[], by simp⟩
  · split
    all_goals next heq =>
      obtain ⟨tail, ht⟩ := create_entries db now input
      rw [heq] at ht
      exact ⟨tail, ht⟩

theorem createEntryFromItem_entries (db : DB) (now : Nat) (feed : Feed)
    (item : ParsedFeedItem) :
    ∃ tail, (FeedService.createEntryFromItem db now feed item).1.entries
      = db.entries ++ tail := by
  unfold FeedService.createEntryFromItem
  cases jsOrStr item.link with
  | none => exact ⟨[], by simp⟩
  | some link =>
    dsimp only
    split
    · next db1 e heq =>
      obtain ⟨tail, ht⟩ := createIfNotExists_entries db now _
      rw [heq] at ht
      have hd : db1.entries = db.entries ++ tail := ht
      split
      · split
        · exact ⟨tail, hd⟩
        · exact ⟨tail, hd⟩
      · exact ⟨tail, hd⟩
    · next db1 heq =>
      obtain ⟨tail, ht⟩ := createIfNotExists_entries db now _
      rw [heq] at ht
      exact ⟨tail, ht⟩
    · next db1 msg heq =>
      obtain ⟨tail, ht⟩ := createIfNotExists_entries db now _
      rw [heq] at ht
      exact ⟨tail, ht⟩

theorem processItems_entries (now : Nat) (feed : Feed) (items : List ParsedFeedItem)
    (db : DB) :
    ∃ tail, (FeedService.processItems now feed items db).1.entries
      = db.entries ++ tail := by
  induction items generalizing db with
  | nil => exact ⟨[], by simp [FeedService.processItems]⟩
  | cons item rest ih =>
    unfold FeedService.processItems
    split
    · next db1 e heq =>
      obtain ⟨t1, ht1⟩ := createEntryFromItem_entries db now feed item
      rw [heq] at ht1
      obtain ⟨t2, ht2⟩ := ih db1
      exact ⟨t1 ++ t2, by dsimp only; rw [ht2, ht1, List.append_assoc]⟩
    · next db1 heq =>
      obtain ⟨t1, ht1⟩ := createEntryFromItem_entries db now feed item
      rw [heq] at ht1
      obtain ⟨t2, ht2⟩ := ih db1
      exact ⟨t1 ++ t2, by rw [ht2, ht1, List.append_assoc]⟩
    · next db1 msg heq =>
      obtain ⟨t1, ht1⟩ := createEntryFromItem_entries db now feed item
      rw [heq] at ht1
      obtain ⟨t2, ht2⟩ := ih db1
      exact ⟨t1 ++ t2, by rw [ht2, ht1, List.append_assoc]⟩

/-- After `createIfNotExists`, the input's key is present (whether it was
found, freshly inserted, or the UNIQUE constraint fired). -/
theorem createIfNotExists_has_key (db : DB) (now : Nat)
    (input : EntryModel.EntryCreateInput) :
    EntryModel.hashExists (EntryModel.createIfNotExists db now input).1 input.feed_id
      (EntryModel.generateHash input.feed_id input.url input.title) = true := by
  unfold EntryModel.createIfNotExists EntryModel.create
  dsimp only
  by_cases hx : EntryModel.hashExists db input.feed_id
      (EntryModel.generateHash input.feed_id input.url input.title) = true
  · rw [if_pos hx]
    exact hx
  · rw [if_neg hx, if_neg hx]
    dsimp only
    unfold EntryModel.hashExists
    rw [List.any_append]
    simp

/-- After `createEntryFromItem` on an item with a link, the item's key is
present in the resulting store. -/
theorem createEntryFromItem_has_key (db : DB) (now : Nat) (feed : Feed)
    (item : ParsedFeedItem) (k : String) (hk : itemKey feed.id item = some k) :
    EntryModel.hashExists (FeedService.createEntryFromItem db now feed item).1
      feed.id k = true := by
  unfold itemKey at hk
  unfold FeedService.createEntryFromItem
  cases hl : jsOrStr item.link with
  | none =>
    rw [hl] at hk
    exact absurd hk (by simp)
  | some link =>
    rw [hl] at hk
    have hkk : k = EntryModel.generateHash feed.id link
        (jsOrDefault item.title "Untitled") := by
      simpa using hk.symm
    subst hkk
    dsimp only
    split
    · next db1 e heq =>
      have h := createIfNotExists_has_key db now
        (FeedService.entryInputOf now feed item link)
      rw [heq] at h
      split
      · split
        · exact h
        · exact h
      · exact h
    · next db1 heq =>
      have h := createIfNotExists_has_key db now
        (FeedService.entryInputOf now feed item link)
      rw [heq] at h
      exact h
    · next db1 msg heq =>
      have h := createIfNotExists_has_key db now
        (FeedService.entryInputOf now feed item link)
      rw [heq] at h
      exact h

/-- An item whose key is already present is skipped: no state change, no
new entry. -/
theorem createEntryFromItem_skips (db : DB) (now : Nat) (feed : Feed)
    (item : ParsedFeedItem)
    (hall : ∀ k, itemKey feed.id item = some k →
        EntryModel.hashExists db feed.id k = true) :
    FeedService.createEntryFromItem db now feed item = (db, Except.ok none) := by
  unfold FeedService.createEntryFromItem
  cases hl : jsOrStr item.link with
  | none => rfl
  | some link =>
    dsimp only
    have hk : EntryModel.hashExists db feed.id
        (EntryModel.generateHash feed.id link (jsOrDefault item.title "Untitled"))
        = true :=
      hall _ (by simp [itemKey, hl])
    unfold EntryModel.createIfNotExists
    simp only [FeedService.entryInputOf]
    rw [if_pos hk]

/-- An item with a fresh key creates exactly one entry carrying that key. -/
theorem createEntryFromItem_creates (db : DB) (now : Nat) (feed : Feed)
    (item : ParsedFeedItem) (k : String) (hk : itemKey feed.id item = some k)
    (hfresh : EntryModel.hashExists db feed.id k = false) :
    ∃ e db', FeedService.createEntryFromItem db now feed item
        = (db', Except.ok (some e)) ∧
      db'.entries = db.entries ++ [e] ∧ e.feed_id = feed.id ∧ e.hash = k := by
  unfold itemKey at hk
  unfold FeedService.createEntryFromItem
  cases hl : jsOrStr item.link with
  | none =>
    rw [hl] at hk
    exact absurd hk (by simp)
  | some link =>
    rw [hl] at hk
    have hkk : k = EntryModel.generateHash feed.id link
        (jsOrDefault item.title "Untitled") := by
      simpa using hk.symm
    subst hkk
    dsimp only
    unfold EntryModel.createIfNotExists EntryModel.create
    simp only [FeedService.entryInputOf]
    rw [if_neg (by simp [hfresh]), if_neg (by simp [hfresh])]
    dsimp only
    split
    · split
      · exact ⟨_, _, rfl, rfl, rfl, rfl⟩
      · exact ⟨_, _, rfl, rfl, rfl, rfl⟩
    · exact ⟨_, _, rfl, rfl, rfl, rfl⟩

/-- After the item loop, every linked item's key is present. -/
theorem processItems_has_keys (now : Nat) (feed : Feed) (items : List ParsedFeedItem)
    (db : DB) :
    ∀ item ∈ items, ∀ k, itemKey feed.id item = some k →
      EntryModel.hashExists (FeedService.processItems now feed items db).1
        feed.id k = true := by
  induction items generalizing db with
  | nil => intro item hm; exact absurd hm (by simp)
  | cons item0 rest ih =>
    intro item hm k hk
    unfold FeedService.processItems
    rcases List.mem_cons.mp hm with rfl | hmr
    · -- the key was inserted (or found) by this very step and persists
      have hstep := createEntryFromItem_has_key db now feed item k hk
      split
      · next db1 e heq =>
        rw [heq] at hstep
        obtain ⟨tail, ht⟩ := processItems_entries now feed rest db1
        dsimp only
        rw [hashExists_append db1 _ feed.id k tail ht, hstep, Bool.true_or]
      · next db1 heq =>
        rw [heq] at hstep
        obtain ⟨tail, ht⟩ := processItems_entries now feed rest db1
        rw [hashExists_append db1 _ feed.id k tail ht, hstep, Bool.true_or]
      · next db1 msg heq =>
        rw [heq] at hstep
        obtain ⟨tail, ht⟩ := processItems_entries now feed rest db1
        rw [hashExists_append db1 _ feed.id k tail ht, hstep, Bool.true_or]
    · split
      · next db1 e heq =>
        dsimp only
        exact ih db1 item hmr k hk
      · next db1 heq =>
        exact ih db1 item hmr k hk
      · next db1 msg heq =>
        exact ih db1 item hmr k hk

/-- The item loop is a no-op when every linked item's key is already
present: the state is unchanged and zero entries are created. -/
theorem processItems_no_new (now : Nat) (feed : Feed) (items : List ParsedFeedItem)
    (db : DB)
    (hall : ∀ item ∈ items, ∀ k, itemKey feed.id item = some k →
        EntryModel.hashExists db feed.id k = true) :
    FeedService.processItems now feed items db = (db, 0) := by
  induction items with
  | nil => rfl
  | cons item rest ih =>
    unfold FeedService.processItems
    rw [createEntryFromItem_skips db now feed item
      (fun k hk => hall item (by simp) k hk)]
    exact ih (fun it hm k hk => hall it (by simp [hm]) k hk)

/-! ### Shape lemmas for `refreshFeed` -/

theorem refreshFeed_notfound (db : DB) (now : Nat) (cfg : Config)
    (fetch : FetchResult) (fav : Option String) (feedId : Nat)
    (h : FeedModel.findById db feedId = none) :
    FeedService.refreshFeed db now cfg fetch fav feedId
      = (db, Except.error "NotFoundError: Feed") := by
  unfold FeedService.refreshFeed
  rw [h]

theorem refreshFeed_ok_spec (db : DB) (now : Nat) (cfg : Config) (pf : ParsedFeed)
    (fav : Option String) (feedId : Nat) (f0 : Feed)
    (hfind : FeedModel.findById db feedId = some f0) :
    ∃ db' r, FeedService.refreshFeed db now cfg (FetchResult.ok pf) fav feedId
        = (db', Except.ok r) ∧
      r.success = true ∧
      r.newEntries = (FeedService.processItems now f0 pf.items db).2 ∧
      db'.entries = (FeedService.processItems now f0 pf.items db).1.entries ∧
      (∀ j, (FeedModel.findById db' j).isSome = (FeedModel.findById db j).isSome) ∧
      (∀ j, j ≠ feedId → FeedModel.findById db' j = FeedModel.findById db j) := by
  have hid : f0.id = feedId := by
    unfold FeedModel.findById at hfind
    simpa using List.find?_some hfind
  have hpre : ∀ j, FeedModel.findById (FeedService.processItems now f0 pf.items db).1 j
      = FeedModel.findById db j :=
    fun j => findById_congr _ db j (processItems_feeds now f0 pf.items db)
  unfold FeedService.refreshFeed
  rw [hfind]
  dsimp only
  rw [hid]
  cases hfav : jsOrStr f0.favicon_url with
  | some s =>
    refine ⟨_, _, rfl, rfl, rfl, ?_, ?_, ?_⟩
    · exact updateFetchResult_entries _ now feedId true _
    · intro j
      rw [findById_updateFetchResult_isSome _ now feedId true _ j, hpre j]
    · intro j hj
      rw [findById_updateFetchResult_other _ now feedId true _ j hj, hpre j]
  | none =>
    cases hlink : jsOrStr pf.link with
    | none =>
      refine ⟨_, _, rfl, rfl, rfl, ?_, ?_, ?_⟩
      · exact updateFetchResult_entries _ now feedId true _
      · intro j
        rw [findById_updateFetchResult_isSome _ now feedId true _ j, hpre j]
      · intro j hj
        rw [findById_updateFetchResult_other _ now feedId true _ j hj, hpre j]
    | some site =>
      cases hfv : jsOrStr fav with
      | none =>
        refine ⟨_, _, rfl, rfl, rfl, ?_, ?_, ?_⟩
        · exact updateFetchResult_entries _ now feedId true _
        · intro j
          rw [findById_updateFetchResult_isSome _ now feedId true _ j, hpre j]
        · intro j hj
          rw [findById_updateFetchResult_other _ now feedId true _ j hj, hpre j]
      | some fv =>
        refine ⟨_, _, rfl, rfl, rfl, ?_, ?_, ?_⟩
        · rw [update_entries, updateFetchResult_entries]
        · intro j
          rw [findById_update_isSome _ now feedId f0.user_id _ j,
            findById_updateFetchResult_isSome _ now feedId true _ j, hpre j]
        · intro j hj
          rw [findById_update_other _ now feedId f0.user_id _ j hj,
            findById_updateFetchResult_other _ now feedId true _ j hj, hpre j]

theorem refreshFeed_err_spec (db : DB) (now : Nat) (cfg : Config) (msg : String)
    (fav : Option String) (feedId : Nat) (f0 : Feed)
    (hfind : FeedModel.findById db feedId = some f0) :
    ∃ db' r, FeedService.refreshFeed db now cfg (FetchResult.err msg) fav feedId
        = (db', Except.ok r) ∧
      r.success = false ∧
      (∃ f1, FeedModel.findById db' feedId = some f1 ∧
        f1.error_count = f0.error_count + 1) ∧
      (∀ j, (FeedModel.findById db' j).isSome = (FeedModel.findById db j).isSome) ∧
      (∀ j, j ≠ feedId → FeedModel.findById db' j = FeedModel.findById db j) := by
  have hid : f0.id = feedId := by
    unfold FeedModel.findById at hfind
    simpa using List.find?_some hfind
  unfold FeedService.refreshFeed
  rw [hfind]
  dsimp only
  rw [hid]
  refine ⟨_, _, rfl, rfl,
    ⟨_, findById_updateFetchResult_fail db now feedId _ f0 hfind, rfl⟩, ?_, ?_⟩
  · intro j
    exact findById_updateFetchResult_isSome db now feedId false _ j
  · intro j hj
    exact findById_updateFetchResult_other db now feedId false _ j hj

/-! ### C3: idempotent refresh -/

/-- C3: for every feed, refreshing a second time while the upstream
document is unchanged creates zero new entries: the second call reports
`newEntries = 0` and inserts no entry row. -/
theorem refresh_idempotent
    (db db1 : DB) (now now2 : Nat) (cfg : Config) (pf : ParsedFeed)
    (fav fav2 : Option String) (feedId : Nat) (r1 : FeedService.FeedRefreshResult)
    (h1 : FeedService.refreshFeed db now cfg (FetchResult.ok pf) fav feedId
        = (db1, Except.ok r1)) :
    ∃ db2 r2, FeedService.refreshFeed db1 now2 cfg (FetchResult.ok pf) fav2 feedId
        = (db2, Except.ok r2) ∧ r2.newEntries = 0 ∧ db2.entries = db1.entries := by
  cases hfind : FeedModel.findById db feedId with
  | none =>
    rw [refreshFeed_notfound db now cfg _ fav feedId hfind] at h1
    exact absurd (congrArg Prod.snd h1) (by simp)
  | some f0 =>
    obtain ⟨db', r, heq, hs, hn, hent, hpres, hother⟩ :=
      refreshFeed_ok_spec db now cfg pf fav feedId f0 hfind
    rw [heq] at h1
    have hdb : db' = db1 := congrArg Prod.fst h1
    subst hdb
    have hsome : (FeedModel.findById db' feedId).isSome = true := by
      rw [hpres feedId, hfind]
      rfl
    obtain ⟨f1, hf1⟩ := Option.isSome_iff_exists.mp hsome
    have hid1 : f1.id = feedId := by
      unfold FeedModel.findById at hf1
      simpa using List.find?_some hf1
    have hid0 : f0.id = feedId := by
      unfold FeedModel.findById at hfind
      simpa using List.find?_some hfind
    have hkeys : ∀ item ∈ pf.items, ∀ k, itemKey f1.id item = some k →
        EntryModel.hashExists db' f1.id k = true := by
      intro item hm k hk
      rw [hid1] at hk ⊢
      rw [hashExists_congr db' (FeedService.processItems now f0 pf.items db).1
        feedId k hent]
      rw [← hid0] at hk ⊢
      exact processItems_has_keys now f0 pf.items db item hm k hk
    obtain ⟨db2, r2, heq2, _, hn2, hent2, _, _⟩ :=
      refreshFeed_ok_spec db' now2 cfg pf fav2 feedId f1 hf1
    have hno := processItems_no_new now2 f1 pf.items db' hkeys
    refine ⟨db2, r2, heq2, ?_, ?_⟩
    · rw [hn2, hno]
    · rw [hent2, hno]

/-- Witness for C3 at a concrete feed and document. -/
theorem refresh_idempotent_witness :
    ∃ db2 r2, FeedService.refreshFeed
        { feeds := [{ id := 1, user_id := 1, category_id := 1, title := "F",
                      feed_url := "https://e/f", last_fetched_at := some 0,
                      next_fetch_at := some 60 }],
          nextFeedId := 2 }
        5 { feedRefreshIntervalMinutes := 60, feedRefreshBatchSize := 10 }
        (FetchResult.ok { title := "T" }) none 1
      = (db2, Except.ok r2) ∧ r2.newEntries = 0 ∧
      db2.entries
        = DB.entries { feeds := [{ id := 1, user_id := 1, category_id := 1, title := "F",
                                   feed_url := "https://e/f", last_fetched_at := some 0,
                                   next_fetch_at := some 60 }],
                       nextFeedId := 2 } :=
  refresh_idempotent
    { feeds := [{ id := 1, user_id := 1, category_id := 1, title := "F",
                  feed_url := "https://e/f" }],
      nextFeedId := 2 }
    { feeds := [{ id := 1, user_id := 1, category_id := 1, title := "F",
                  feed_url := "https://e/f", last_fetched_at := some 0,
                  next_fetch_at := some 60 }],
      nextFeedId := 2 }
    0 5 { feedRefreshIntervalMinutes := 60, feedRefreshBatchSize := 10 }
    { title := "T" } none none 1
    { feed := some { id := 1, user_id := 1, category_id := 1, title := "F",
                     feed_url := "https://e/f", last_fetched_at := some 0,
                     next_fetch_at := some 60 },
      newEntries := 0, success := true }
    rfl

/-! ### C4: batch isolation in the scheduler sweep -/

/-- `error_count` of the feed row with the given id (0 when absent), as
read by the failure path of `updateFetchResult`. -/
def errorCountOf (db : DB) (i : Nat) : Nat :=
  match FeedModel.findById db i with
  | some f => f.error_count
  | none => 0

/-- A sweep segment in which every feed is found and fetches successfully:
all of them count as refreshed, none as errors. -/
theorem refreshLoop_all_ok (now : Nat) (cfg : Config) (fetchOf : Nat → FetchResult)
    (favOf : Nat → Option String) (feeds : List Feed) (db : DB)
    (hpresent : ∀ f ∈ feeds, (FeedModel.findById db f.id).isSome = true)
    (hok : ∀ f ∈ feeds, ∃ pf, fetchOf f.id = FetchResult.ok pf) :
    ∃ db', FeedService.refreshLoop now cfg fetchOf favOf feeds db
        = (db', feeds.length, 0) ∧
      (∀ j, (FeedModel.findById db' j).isSome = (FeedModel.findById db j).isSome) ∧
      (∀ j, (∀ f ∈ feeds, j ≠ f.id) → FeedModel.findById db' j
        = FeedModel.findById db j) := by
  induction feeds generalizing db with
  | nil => exact ⟨db, rfl, fun j => rfl, fun j _ => rfl⟩
  | cons f rest ih =>
    obtain ⟨pf, hpf⟩ := hok f (by simp)
    obtain ⟨f0, hf0⟩ := Option.isSome_iff_exists.mp (hpresent f (by simp))
    obtain ⟨db1, r, heq, hs, _, _, hpres, hother⟩ :=
      refreshFeed_ok_spec db now cfg pf (favOf f.id) f.id f0 hf0
    obtain ⟨db2, ihq, ihpres, ihother⟩ := ih db1
      (fun g hg => by rw [hpres g.id]; exact hpresent g (by simp [hg]))
      (fun g hg => hok g (by simp [hg]))
    refine ⟨db2, ?_, ?_, ?_⟩
    · unfold FeedService.refreshLoop
      rw [hpf, heq]
      dsimp only
      rw [ihq, hs]
      rfl
    · intro j
      rw [ihpres j, hpres j]
    · intro j hj
      rw [ihother j (fun g hg => hj g (by simp [hg])), hother j (hj f (by simp))]

/-- The cons equation of the sweep loop, with the accumulator projections
spelled out. -/
theorem refreshLoop_cons_eq (now : Nat) (cfg : Config) (fetchOf : Nat → FetchResult)
    (favOf : Nat → Option String) (f : Feed) (rest : List Feed) (db : DB) :
    FeedService.refreshLoop now cfg fetchOf favOf (f :: rest) db
      = (match FeedService.refreshFeed db now cfg (fetchOf f.id) (favOf f.id) f.id with
         | (db', Except.ok r) =>
           if r.success
           then ((FeedService.refreshLoop now cfg fetchOf favOf rest db').1,
                 (FeedService.refreshLoop now cfg fetchOf favOf rest db').2.1 + 1,
                 (FeedService.refreshLoop now cfg fetchOf favOf rest db').2.2)
           else ((FeedService.refreshLoop now cfg fetchOf favOf rest db').1,
                 (FeedService.refreshLoop now cfg fetchOf favOf rest db').2.1,
                 (FeedService.refreshLoop now cfg fetchOf favOf rest db').2.2 + 1)
         | (db', Except.error m) =>
           ((FeedService.refreshLoop now cfg fetchOf favOf rest db').1,
            (FeedService.refreshLoop now cfg fetchOf favOf rest db').2.1,
            (FeedService.refreshLoop now cfg fetchOf favOf rest db').2.2 + 1)) := rfl

/-- The sweep loop over a concatenation: states thread left to right and
the two counters add up. -/
theorem refreshLoop_append_aux (now : Nat) (cfg : Config) (fetchOf : Nat → FetchResult)
    (favOf : Nat → Option String) (l1 l2 : List Feed) (db : DB) :
    FeedService.refreshLoop now cfg fetchOf favOf (l1 ++ l2) db
      = ((FeedService.refreshLoop now cfg fetchOf favOf l2
            (FeedService.refreshLoop now cfg fetchOf favOf l1 db).1).1,
         (FeedService.refreshLoop now cfg fetchOf favOf l1 db).2.1
           + (FeedService.refreshLoop now cfg fetchOf favOf l2
               (FeedService.refreshLoop now cfg fetchOf favOf l1 db).1).2.1,
         (FeedService.refreshLoop now cfg fetchOf favOf l1 db).2.2
           + (FeedService.refreshLoop now cfg fetchOf favOf l2
               (FeedService.refreshLoop now cfg fetchOf favOf l1 db).1).2.2) := by
  induction l1 generalizing db with
  | nil =>
    simp [FeedService.refreshLoop]
  | cons f l1' ih =>
    rw [List.cons_append, refreshLoop_cons_eq, refreshLoop_cons_eq]
    cases hr : FeedService.refreshFeed db now cfg (fetchOf f.id) (favOf f.id) f.id with
    | mk db' res =>
      cases res with
      | ok r =>
        dsimp only
        rw [ih db']
        by_cases hs : r.success = true
        · rw [if_pos hs, if_pos hs]
          dsimp only
          simp only [Prod.mk.injEq]
          refine ⟨?_, ?_, ?_⟩ <;> first | trivial | omega
        · rw [if_neg hs, if_neg hs]
          dsimp only
          simp only [Prod.mk.injEq]
          refine ⟨?_, ?_, ?_⟩ <;> first | trivial | omega
      | error m =>
        dsimp only
        rw [ih db']
        dsimp only
        simp only [Prod.mk.injEq]
        refine ⟨?_, ?_, ?_⟩ <;> first | trivial | omega

/-- C4: in a sweep batch where exactly one feed's fetch fails and every
other feed is found and fetches successfully, `refreshDueFeeds` attempts
all feeds and returns `refreshed = N-1`, `errors = 1`, and the failing
feed's `error_count` increases by exactly one. -/
theorem refreshDueFeeds_batch_isolation
    (db : DB) (now : Nat) (cfg : Config) (fetchOf : Nat → FetchResult)
    (favOf : Nat → Option String) (pre post : List Feed) (k : Feed) (msg : String)
    (hbatch : FeedService.findFeedsToRefresh db now cfg.feedRefreshBatchSize
        = pre ++ k :: post)
    (hpresent : ∀ f ∈ pre ++ k :: post, (FeedModel.findById db f.id).isSome = true)
    (hdistinct : ∀ f ∈ pre ++ post, f.id ≠ k.id)
    (hfail : fetchOf k.id = FetchResult.err msg)
    (hok : ∀ f ∈ pre ++ post, ∃ pf, fetchOf f.id = FetchResult.ok pf) :
    ∃ dbf, FeedService.refreshDueFeeds db now cfg fetchOf favOf
        = (dbf, pre.length + post.length, 1) ∧
      errorCountOf dbf k.id = errorCountOf db k.id + 1 := by
  -- the prefix of successful feeds
  obtain ⟨dbp, hpq, hppres, hpother⟩ :=
    refreshLoop_all_ok now cfg fetchOf favOf pre db
      (fun f hf => hpresent f (by simp [hf]))
      (fun f hf => hok f (by simp [hf]))
  -- the failing feed is found with its original error count
  have hkeep : FeedModel.findById dbp k.id = FeedModel.findById db k.id :=
    hpother k.id (fun f hf he => hdistinct f (by simp [hf]) he.symm)
  obtain ⟨f0k, hf0k⟩ := Option.isSome_iff_exists.mp (hpresent k (by simp))
  have hf0kp : FeedModel.findById dbp k.id = some f0k := by rw [hkeep]; exact hf0k
  obtain ⟨dbk, rk, hkq, hksucc, ⟨fk1, hfk1, hfk1c⟩, hkpres, hkother⟩ :=
    refreshFeed_err_spec dbp now cfg msg (favOf k.id) k.id f0k hf0kp
  -- the suffix of successful feeds
  obtain ⟨dbf, hsq, hspres, hsother⟩ :=
    refreshLoop_all_ok now cfg fetchOf favOf post dbk
      (fun f hf => by
        rw [hkpres f.id, hppres f.id]
        exact hpresent f (by simp [hf]))
      (fun f hf => hok f (by simp [hf]))
  refine ⟨dbf, ?_, ?_⟩
  · unfold FeedService.refreshDueFeeds
    rw [hbatch, refreshLoop_append_aux now cfg fetchOf favOf pre (k :: post) db, hpq]
    dsimp only
    unfold FeedService.refreshLoop
    rw [hfail, hkq]
    dsimp only
    rw [hsq, hksucc]
    dsimp only
    rfl
  · have hkk : FeedModel.findById dbf k.id = some fk1 := by
      rw [hsother k.id (fun f hf he => hdistinct f (by simp [hf]) he.symm)]
      exact hfk1
    unfold errorCountOf
    rw [hkk, hf0k]
    exact hfk1c

/-- Witness for C4: three due feeds, the middle one's fetch fails. -/
theorem refreshDueFeeds_batch_isolation_witness :
    ∃ dbf, FeedService.refreshDueFeeds
        { feeds := [{ id := 1, user_id := 1, category_id := 1, title := "F1",
                      feed_url := "https://e/1" },
                    { id := 2, user_id := 1, category_id := 1, title := "F2",
                      feed_url := "https://e/2" },
                    { id := 3, user_id := 1, category_id := 1, title := "F3",
                      feed_url := "https://e/3" }],
          nextFeedId := 4 }
        0 { feedRefreshIntervalMinutes := 60, feedRefreshBatchSize := 10 }
        (fun i => if i == 2 then FetchResult.err "boom"
                  else FetchResult.ok { title := "T" })
        (fun _ => none)
      = (dbf, 2, 1) ∧
      errorCountOf dbf 2
        = errorCountOf
            { feeds := [{ id := 1, user_id := 1, category_id := 1, title := "F1",
                          feed_url := "https://e/1" },
                        { id := 2, user_id := 1, category_id := 1, title := "F2",
                          feed_url := "https://e/2" },
                        { id := 3, user_id := 1, category_id := 1, title := "F3",
                          feed_url := "https://e/3" }],
              nextFeedId := 4 } 2 + 1 :=
  refreshDueFeeds_batch_isolation
    { feeds := [{ id := 1, user_id := 1, category_id := 1, title := "F1",
                  feed_url := "https://e/1" },
                { id := 2, user_id := 1, category_id := 1, title := "F2",
                  feed_url := "https://e/2" },
                { id := 3, user_id := 1, category_id := 1, title := "F3",
                  feed_url := "https://e/3" }],
      nextFeedId := 4 }
    0 { feedRefreshIntervalMinutes := 60, feedRefreshBatchSize := 10 }
    (fun i => if i == 2 then FetchResult.err "boom"
              else FetchResult.ok { title := "T" })
    (fun _ => none)
    [{ id := 1, user_id := 1, category_id := 1, title := "F1",
       feed_url := "https://e/1" }]
    [{ id := 3, user_id := 1, category_id := 1, title := "F3",
       feed_url := "https://e/3" }]
    { id := 2, user_id := 1, category_id := 1, title := "F2",
      feed_url := "https://e/2" }
    "boom"
    rfl
    (by decide)
    (by decide)
    rfl
    (by
      intro f hf
      refine ⟨{ title := "T" }, ?_⟩
      simp only [List.cons_append, List.nil_append, List.mem_cons,
        List.not_mem_nil, or_false] at hf
      rcases hf with rfl | rfl <;> rfl)

/-! ### C5: backfill bound at subscribe time -/

/-- When every item has a link, the keys are pairwise distinct and none is
stored yet, the item loop creates one entry per item. -/
theorem processItems_all_new (now : Nat) (feed : Feed) (items : List ParsedFeedItem)
    (db : DB)
    (hlinks : ∀ item ∈ items, (jsOrStr item.link).isSome = true)
    (hnodup : (items.map (itemKey feed.id)).Nodup)
    (hfresh : ∀ item ∈ items, ∀ k, itemKey feed.id item = some k →
        EntryModel.hashExists db feed.id k = false) :
    (FeedService.processItems now feed items db).2 = items.length ∧
    (FeedService.processItems now feed items db).1.entries.length
      = db.entries.length + items.length := by
  induction items generalizing db with
  | nil => exact ⟨rfl, by simp [FeedService.processItems]⟩
  | cons item rest ih =>
    obtain ⟨l, hls⟩ := Option.isSome_iff_exists.mp (hlinks item (by simp))
    have hk : itemKey feed.id item
        = some (EntryModel.generateHash feed.id l (jsOrDefault item.title "Untitled")) := by
      simp [itemKey, hls]
    obtain ⟨e, db', hce, hent, hef, heh⟩ :=
      createEntryFromItem_creates db now feed item _ hk
        (hfresh item (by simp) _ hk)
    rw [List.map_cons] at hnodup
    have hnd := List.nodup_cons.mp hnodup
    have ihres := ih db'
      (fun it hm => hlinks it (List.mem_cons_of_mem _ hm))
      hnd.2
      (fun it hm k' hk' => by
        rw [hashExists_append db db' feed.id k' [e] hent,
          hfresh it (List.mem_cons_of_mem _ hm) k' hk']
        have hne : k' ≠ e.hash := by
          rw [heh]
          intro he
          apply hnd.1
          have hit : itemKey feed.id it = itemKey feed.id item := by rw [hk', hk, he]
          rw [← hit]
          exact List.mem_map_of_mem _ hm
        have hf2 : (e.hash == k') = false := beq_eq_false_iff_ne.mpr (Ne.symm hne)
        simp [hf2])
    unfold FeedService.processItems
    rw [hce]
    dsimp only
    refine ⟨?_, ?_⟩
    · rw [ihres.1, List.length_cons]
    · rw [ihres.2, hent]
      simp only [List.length_append, List.length_cons, List.length_nil]
      omega

/-- C5: subscribing to a feed whose source document has more than 50 items
backfills from at most the first 50 items in source order — the call is
indistinguishable from one receiving only those 50 items, so items beyond
the 50th are never persisted — and, when the first 50 items all carry
links, their fingerprints are pairwise distinct and the new feed's id is
fresh, it creates exactly 50 entries. -/
theorem subscribe_backfill_cap
    (db : DB) (now : Nat) (cfg : Config) (userId : Nat)
    (input : FeedService.FeedCreateInput) (favicon : Option String) (pf : ParsedFeed)
    (hurl : input.feed_url ≠ "")
    (hex : FeedModel.feedUrlExists db userId input.feed_url = false)
    (hcat : ∃ cid, FeedService.resolveCategory db userId input = Except.ok cid)
    (hlen : 50 < pf.items.length)
    (hfresh : ∀ e ∈ db.entries, e.feed_id ≠ db.nextFeedId)
    (hlinks : ∀ item ∈ pf.items.take 50, (jsOrStr item.link).isSome = true)
    (hnodup : ((pf.items.take 50).map (itemKey db.nextFeedId)).Nodup) :
    FeedService.subscribe db now cfg userId input true (FetchResult.ok pf) favicon
      = FeedService.subscribe db now cfg userId input true
          (FetchResult.ok { pf with items := pf.items.take 50 }) favicon ∧
    ∃ db3 fOpt, FeedService.subscribe db now cfg userId input true
        (FetchResult.ok pf) favicon
      = (db3, Except.ok (fOpt, 50)) ∧
      db3.entries.length = db.entries.length + 50 := by
  obtain ⟨cid, hc⟩ := hcat
  constructor
  · unfold FeedService.subscribe
    dsimp only
    rw [List.take_take, Nat.min_self]
  · unfold FeedService.subscribe
    rw [hc]
    have h1 : (decide (input.feed_url = "") || !true) = false := by
      simp [hurl]
    rw [h1, hex]
    rw [if_neg (by decide : ¬ (false = true)), if_neg (by decide : ¬ (false = true))]
    dsimp only
    have hall := processItems_all_new now
      (FeedModel.create db now userId cid
        (jsOrDefault input.title (jsOrDefault (some pf.title) "Untitled Feed"))
        input.feed_url pf.link pf.description (jsOrStr favicon)).2
      (pf.items.take 50)
      (FeedModel.create db now userId cid
        (jsOrDefault input.title (jsOrDefault (some pf.title) "Untitled Feed"))
        input.feed_url pf.link pf.description (jsOrStr favicon)).1
      hlinks hnodup
      (fun item hm k hk => hashExists_false_of_fresh _ _ k (fun e he => hfresh e he))
    have h50 : (pf.items.take 50).length = 50 := by
      rw [List.length_take]
      exact Nat.min_eq_left (Nat.le_of_lt hlen)
    rw [hall.1.trans h50]
    refine ⟨_, _, rfl, ?_⟩
    rw [updateFetchResult_entries, hall.2, h50]
    try rfl


set_option maxRecDepth 100000 in
set_option maxHeartbeats 4000000 in
/-- Witness for C5: a 51-item document over an empty store creates exactly
50 entries. -/
theorem subscribe_backfill_cap_witness :
    FeedService.subscribe { categories := [{ id := 1, user_id := 1, title := "Default" }] }
        7 { feedRefreshIntervalMinutes := 60, feedRefreshBatchSize := 10 } 1
        { feed_url := "https://example.com/feed.xml" } true
        (FetchResult.ok { items := (List.range 51).map (fun n =>
          { link := some ("u" ++ toString n), title := some "t" }) }) none
      = FeedService.subscribe { categories := [{ id := 1, user_id := 1, title := "Default" }] }
          7 { feedRefreshIntervalMinutes := 60, feedRefreshBatchSize := 10 } 1
          { feed_url := "https://example.com/feed.xml" } true
          (FetchResult.ok { ({ items := (List.range 51).map (fun n =>
              { link := some ("u" ++ toString n), title := some "t" }) } : ParsedFeed) with
            items := ((List.range 51).map (fun n =>
              ({ link := some ("u" ++ toString n), title := some "t" } : ParsedFeedItem))).take 50 }) none ∧
    ∃ db3 fOpt, FeedService.subscribe
        { categories := [{ id := 1, user_id := 1, title := "Default" }] }
        7 { feedRefreshIntervalMinutes := 60, feedRefreshBatchSize := 10 } 1
        { feed_url := "https://example.com/feed.xml" } true
        (FetchResult.ok { items := (List.range 51).map (fun n =>
          { link := some ("u" ++ toString n), title := some "t" }) }) none
      = (db3, Except.ok (fOpt, 50)) ∧
      db3.entries.length
        = ({ categories := [{ id := 1, user_id := 1, title := "Default" }] } : DB).entries.length
            + 50 := by
  have hkeys :
      ((((List.range 51).map (fun n =>
          ({ link := some ("u" ++ toString n), title := some "t" } : ParsedFeedItem))).take 50).map
        (itemKey 1))
      = [
       some "dfb95c5ce2eb3cecd82d7f54733fff1059df08cc398933f19dd5a962a62adc5c",
       some "097ccb1e471dadf591527141904ebb18149ef071f72fb6276df78c0c27ef57ec",
       some "b2dc9758e95050af231aeff3253ce30c40175a9f91c1794d3a1845672b699ce7",
       some "54b8a666fa3e02d5f824f7145254626ae8af9103e3aa4c02b9c67cf669843277",
       some "3bfa3f680884f8da6b5594d663a35bc7ced57ea6566163df5e958895456cb25e",
       some "d22969154b2ba8510454e82022e573eec1379ec03138674da554b9fa8c225036",
       some "8a9763e7ae17b76169bfc4bbc6bcf5cb7f3a7068eca05c949a70fa1795d5807e",
       some "70c69b89c57f33a839049fa2ad33a8fab416e3b29dc75f535e52887fad45bc5e",
       some "088c140343b3aa744b9f63a14f54da470a764c4739f7127a8a2f4476f0171f50",
       some "41709adcdc6d3301add8221699c6b8dfa99346924477692ce7d799babdbd4522",
       some "bd8cf8fdb4e88137b9efba6dcfb53666f1eb057a7367da9c39cf3cac29b5be0a",
       some "4f9ccdb040e5f7df269b28bdfa927e8573d861db58cef45341e43035e3349f5c",
       some "a6b3f7524960b45a7f7b00f6d92f7daa828031d75cbbcf538846c41c8743ab37",
       some "2853876f7296df8312860470745e0874c8cd69246292d7603e6c7b29d06c7b42",
       some "cf46ef9484487211c85edbd8d44af8bcc31795b700fcece59a789fb7fc37b6ba",
       some "767b8a2c07056179ebaf86b21a42bc1558772579ce1d917614b2a22e4213b313",
       some "5436e83bae505b93da56f9d58a883e296360a5b8422f2e73e8265d22bc155f96",
       some "fac96fb222366b3465b9d03d6c50a13a36e55d74a1f1e1eb5522ae6f7c59ec18",
       some "b10c23f35080a8137a83bb3a358266633c3d4f2b9c269105212f8455ccbffa3f",
       some "0dcf3878c5911c8d487f58d87bd73fc23a71e2f6fe2d1df59fdcc529a8379563",
       some "a46b80e71d2bbee39c39420657204066ec10e1d592926e1f20e9cb0e3a05fd62",
       some "cbea13b6258a4ba323699d05d306c9b456fb80eae4102c603668c03d3f1efb61",
       some "052bb0db07a15564aed473f550c4d55f12a084ffe88f4667087f1a022815e33b",
       some "5e6df1610e37876436ac6a775fc4d0c1fb823af92d79061745be8e557ce746a2",
       some "a59337b9471ac41cd813b5629e4bf0341278fc53be56bb606490fe66d143a1f4",
       some "88916b067633d984cd011a1bccf6d931d5d5d9e18863616974a34125136c8f3a",
       some "6aee84a8e07f4c5465894c36e1f7081483505767e024efb7dbae2a456e723d28",
       some "deb664e1581a13c3a87d788f7df945ed1e0d5dacfb460f08dc773d66f71e4302",
       some "efddc8713a7b620935f4abc6b4d86166f98bf49cc556ca58844b4b1daf2b8feb",
       some "7870c36487056e0362b4281a1db4a430ee52e0b2d60a5246a4c6d0144a5bc34b",
       some "a09cde9ffe352fc01266c8fe3fc071b9e94928e291c20d00fc95bf8f373d7e7e",
       some "0b9de74574836a94a76e68b0e6de76650f6d0ddee16e1247ed2bef51a6c29469",
       some "4d6e4cf021d7764e8678be4fe90003fb7316c9ccba160bbc8fa665d9b6010a00",
       some "b217ca2a5c913b74f3b2ab30f0594aa9dc69208bb414be20c36cb6d9f66a1fb3",
       some "d3e44790a5135e23758e661097a95ca10e25ad1bebc8cfc274ebbf8d35ffed4a",
       some "22608b2d818bf3d9c97aa8ffe0bc418def4e50ac40c4d5546298d60e557556be",
       some "6040906159eea4d18bb7532843fcb46c0be5c773b8a00a1aa8d765068a5465ef",
       some "af731fe50b9ba9cd135b964f5e95107dbdab6f7a1d8aa5d981ed03ecbe923d2e",
       some "aadcacb9eed43ceeacdd082e8ba04d011dcf57b642142bc4a2d0dba83edceb78",
       some "1eeac8105c14ecd68eaae91762d36bbd713e7ca3fa3099536837933d6380af1c",
       some "0b3e95f7a578ab0c5f6f1b5cf107900c47c22913006c5ae33dd89983bda4862e",
       some "74e86c857b849b60fbd04b2b181127145ca74f0e8dd98f16836eede4d8415178",
       some "de649982199a31e4b3cb5c384000a6ff4b246c4402b137fe61c1bfeae4d16395",
       some "1103103e318fa63d0fdc3dc6e051a27eb2c1dad888ed5eda1114ab78dce2b0d9",
       some "679ff6abbed7636e5135ecb16d10a56e1d5056f26bd7b668330f3cd4b48a8dfa",
       some "af3c775fc1f1e4cb74991277b0f4803107b1664b6ced20b75387a95a8c370279",
       some "b25b1625e57d198f5f7329bc8ef5a3411f5d37828dbef68aa2a2583e02b84934",
       some "c8cdd12acb00d45ae73ba36c61431e010b5a3273f4886a24308eda65d37d5279",
       some "6727b780e38a8c9da6a5497f68af6ed52ed6d56253c8cf56a403367e8dad6c53",
       some "3fda5c7cdd6955130299c13eef85a2e2e68947a4e019ccdc94e37f503f03f6a3"] := by
    decide
  exact subscribe_backfill_cap
    { categories := [{ id := 1, user_id := 1, title := "Default" }] }
    7 { feedRefreshIntervalMinutes := 60, feedRefreshBatchSize := 10 } 1
    { feed_url := "https://example.com/feed.xml" } none
    { items := (List.range 51).map (fun n =>
        { link := some ("u" ++ toString n), title := some "t" }) }
    (by decide) (by decide) ⟨1, rfl⟩ (by decide) (by decide) (by decide)
    (by
      show ((((List.range 51).map (fun n =>
          ({ link := some ("u" ++ toString n), title := some "t" } : ParsedFeedItem))).take 50).map
        (itemKey 1)).Nodup
      rw [hkeys]
      decide)

end Macrofeed
